import Mathlib

/-!
# Booking Transaction Engine — shallow embedding

This file embeds the booking transaction engine of the repository
(`src/services/voucherService.ts` — the `TransactionService` class — together
with `src/utils/helpers.ts` and the Prisma schema in
`prisma/migrations/.../migration.sql`) into Lean 4 and proves properties of it.

Modelling conventions:
* JavaScript `number` amounts (prices, discounts, point amounts — `DOUBLE
  PRECISION` columns) are modelled as `ℚ`; integer counters (`INTEGER`
  columns: `quantity`, `soldQuantity`, `availableSeats`, `bookedSeats`,
  `maxUsage`, `usedCount`, ticket quantities) as `ℤ`.
* Timestamps are modelled as `ℤ` (milliseconds since epoch, as in JS);
  every `new Date()` read inside one service call is the same instant,
  passed as an explicit `now` argument.
* Database `TEXT` primary keys are modelled as `ℕ`; a `nextId` counter in
  the database state stands for the id generator.  Discount codes stay
  `String` because the code trims and compares them as strings.
* Each service method runs inside `prisma.$transaction`: if the callback
  throws, every write made through the transaction client is rolled back and
  the committed state is unchanged.  Accordingly an operation is embedded as
  a function into `Except Err (DB × α)`: an `.error` outcome commits nothing.
* Prisma `update where id` is modelled as a `List.map` that rewrites the
  rows whose id matches; `findFirst` as `List.find?`.
-/

/-- `DiscountType` enum from the Prisma schema. -/
inductive DiscountType
  | PERCENTAGE
  | FIXED
deriving DecidableEq, Repr

/-- `TransactionStatus` enum from the Prisma schema. -/
inductive TransactionStatus
  | WAITING_FOR_PAYMENT
  | WAITING_FOR_CONFIRMATION
  | DONE
  | REJECTED
  | EXPIRED
  | CANCELED
deriving DecidableEq, Repr

/-- Error outcomes of the service methods.  Each constructor corresponds to a
`throw` site in `TransactionService` (the error classes / codes in
`voucherService.ts`); the constructor name records the message or code. -/
inductive Err
  | invalidInput                -- 'At least one ticket type is required', INVALID_INPUT
  | eventNotAvailable           -- EventNotAvailableError, EVENT_NOT_AVAILABLE
  | ticketTypesNotFound         -- TICKET_TYPES_NOT_FOUND
  | invalidQuantity             -- INVALID_QUANTITY
  | insufficientTickets         -- InsufficientTicketsError, INSUFFICIENT_TICKETS
  | insufficientSeats           -- INSUFFICIENT_SEATS
  | pointsExceedAmount          -- PointsError 'Points used cannot exceed total amount'
  | insufficientPoints          -- PointsError 'Insufficient points. ...'
  | voucherUsageLimitReached    -- VoucherError 'Voucher usage limit reached'
  | voucherMinPurchase          -- VoucherError 'Minimum purchase for voucher is ...'
  | couponMinimumNotMet         -- COUPON_MINIMUM_NOT_MET
  | ticketQuantityExceeded      -- 'Ticket quantity exceeded for ...' (plain Error)
  | deductPointsFailed          -- PointsError 'Failed to deduct all points. ...'
  | transactionNotFound         -- TRANSACTION_NOT_FOUND
  | transactionExpired          -- TRANSACTION_EXPIRED
  | recordNotFound              -- a prisma update/assertion on a missing row
deriving DecidableEq, Repr

/-- `addHours` from `src/utils/helpers.ts` (`setHours(getHours()+h)`), on
millisecond timestamps. -/
def addHours (date : ℤ) (hours : ℤ) : ℤ :=
  date + hours * 3600000

/-- `addMonths` from `src/utils/helpers.ts` (`setMonth(getMonth()+m)`);
calendar months are modelled as fixed 30-day periods, which is all the
claims use (only the ordering of the resulting dates matters). -/
def addMonths (date : ℤ) (months : ℤ) : ℤ :=
  date + months * 2592000000

/-- `calculateDiscount` from `src/utils/helpers.ts`.

```ts
let discount = 0;
if (discountType === 'PERCENTAGE') {
  discount = (amount * discountValue) / 100;
  if (maxDiscount && discount > maxDiscount) { discount = maxDiscount; }
} else {
  discount = discountValue;
}
return Math.min(discount, amount);
```

The JS guard `maxDiscount && ...` is truthiness: an absent (`undefined`) cap
and a cap equal to `0` both skip the clamp, hence the `c ≠ 0` test. -/
def calculateDiscount (amount : ℚ) (discountType : DiscountType)
    (discountValue : ℚ) (maxDiscount : Option ℚ := none) : ℚ :=
  let discount :=
    match discountType with
    | .PERCENTAGE =>
        let d := amount * discountValue / 100
        match maxDiscount with
        | some c => if c ≠ 0 ∧ d > c then c else d
        | none => d
    | .FIXED => discountValue
  min discount amount

example : calculateDiscount 120000 .PERCENTAGE 10 (some 20000) = 12000 := by
  norm_num [calculateDiscount]

example : calculateDiscount 100 .FIXED 250 none = 100 := by
  norm_num [calculateDiscount]

/-- Row of `event_ticket_types` (fields used by the engine). -/
structure TicketType where
  id : ℕ
  eventId : ℕ
  price : ℚ
  quantity : ℤ
  soldQuantity : ℤ
deriving DecidableEq, Repr

/-- Row of `events` (fields used by the engine). -/
structure Event where
  id : ℕ
  organizerId : ℕ
  isPublished : Bool
  startDate : ℤ
  availableSeats : ℤ
  bookedSeats : ℤ
deriving DecidableEq, Repr

/-- Row of `event_vouchers`.  Note: the schema has no per-voucher
maximum-discount column — only `coupon_templates.maxDiscountAmount` exists. -/
structure Voucher where
  id : ℕ
  eventId : ℕ
  code : String
  discountType : DiscountType
  discountValue : ℚ
  maxUsage : ℤ
  usedCount : ℤ
  minPurchaseAmount : ℚ
  startDate : ℤ
  endDate : ℤ
deriving DecidableEq, Repr

/-- Row of `coupon_templates` (fields used by the engine);
`maxDiscountAmount` is nullable. -/
structure CouponTemplate where
  discountType : DiscountType
  discountValue : ℚ
  maxDiscountAmount : Option ℚ
  minPurchaseAmount : ℚ
deriving DecidableEq, Repr

/-- Row of `user_coupons`, with its `couponTemplate` relation inlined. -/
structure UserCoupon where
  id : ℕ
  userId : ℕ
  code : String
  isUsed : Bool
  expiryDate : ℤ
  couponTemplate : CouponTemplate
deriving DecidableEq, Repr

/-- Row of `user_points` (a point lot). -/
structure UserPoint where
  id : ℕ
  userId : ℕ
  amount : ℚ
  isExpired : Bool
  expiryDate : ℤ
  createdAt : ℤ
deriving DecidableEq, Repr

/-- Row of `transaction_items`. -/
structure TransactionItem where
  ticketTypeId : ℕ
  quantity : ℤ
  pricePerTicket : ℚ
  subtotal : ℚ
deriving DecidableEq, Repr

/-- Row of `transactions` (fields used by the engine), with its `items`
relation inlined. -/
structure Transaction where
  id : ℕ
  userId : ℕ
  eventId : ℕ
  status : TransactionStatus
  totalAmount : ℚ
  pointsUsed : ℚ
  voucherId : Option ℕ
  voucherDiscount : ℚ
  couponId : Option ℕ
  couponDiscount : ℚ
  finalAmount : ℚ
  expiryTime : ℤ
  items : List TransactionItem
deriving DecidableEq, Repr

/-- Row of `event_attendees` (fields written by `confirmTransaction`). -/
structure Attendee where
  eventId : ℕ
  userId : ℕ
  transactionId : ℕ
  ticketCount : ℤ
  totalPaid : ℚ
deriving DecidableEq, Repr

/-- The database state seen by the engine.  `payments` holds the
`transaction_payments` rows as the set of transaction ids that have a proof
(the proof URL itself plays no role in any claim); `nextId` models the
fresh-id generator for created rows. -/
structure DB where
  events : List Event
  ticketTypes : List TicketType
  vouchers : List Voucher
  coupons : List UserCoupon
  points : List UserPoint
  transactions : List Transaction
  attendees : List Attendee
  payments : List ℕ
  nextId : ℕ
deriving DecidableEq, Repr

/-- One line of `TransactionCreateRequest.ticketTypes`
(`src/types/index.ts`). -/
structure ReqItem where
  ticketTypeId : ℕ
  quantity : ℤ
deriving DecidableEq, Repr

/-- `TransactionCreateRequest` (`src/types/index.ts`); `pointsUsed` defaults
to `0` and the codes are optional, as in the TS interface. -/
structure TransactionCreateRequest where
  eventId : ℕ
  ticketTypes : List ReqItem
  pointsUsed : ℚ := 0
  voucherCode : Option String := none
  couponCode : Option String := none
deriving DecidableEq, Repr

/-- `code.trim()` from the source, re-implemented by structural recursion on
the character list (drop leading whitespace, then trailing whitespace).
Core's `String.trim` is defined by well-founded recursion on byte positions,
which cannot be evaluated inside the kernel on literals; this equivalent
avoids that. -/
def strim (s : String) : String :=
  ⟨((s.data.dropWhile Char.isWhitespace).reverse.dropWhile Char.isWhitespace).reverse⟩

/-- Sum of the requested quantities
(`ticketTypes.reduce((sum, item) => sum + item.quantity, 0)`). -/
def sumQuantities (l : List ReqItem) : ℤ :=
  l.foldl (fun s i => s + i.quantity) 0

/-- Sum of a transaction's item quantities
(`items.reduce((sum, item) => sum + item.quantity, 0)`). -/
def itemsTotalQuantity (l : List TransactionItem) : ℤ :=
  l.foldl (fun s i => s + i.quantity) 0

/-- The `where` filter of the `userPoint.findMany` in
`TransactionService.deductPoints`: the user's lots with `isExpired: false`,
`expiryDate: { gte: now }` and `amount: { gt: 0 }`. -/
def isEligibleLot (userId : ℕ) (now : ℤ) (p : UserPoint) : Bool :=
  p.userId == userId && !p.isExpired && decide (now ≤ p.expiryDate) &&
  decide (0 < p.amount)

/-- The point lots `deductPoints` iterates over: the eligible lots ordered by
`expiryDate` ascending (`orderBy: { expiryDate: 'asc' }`). -/
def eligibleLots (points : List UserPoint) (userId : ℕ) (now : ℤ) : List UserPoint :=
  List.insertionSort (fun a b => a.expiryDate ≤ b.expiryDate)
    (points.filter (isEligibleLot userId now))

/-- The per-lot deductions performed by the loop in
`TransactionService.deductPoints`: walk the eligible lots in order, deducting
`min(remainingAmount, point.amount)` from each until the amount is covered. -/
def greedyPlan : List UserPoint → ℚ → List (ℕ × ℚ)
  | [], _ => []
  | p :: rest, remaining =>
    if remaining ≤ 0 then []
    else
      let deductAmount := min remaining p.amount
      (p.id, deductAmount) :: greedyPlan rest (remaining - deductAmount)

/-- Total amount a deduction plan removes. -/
def planTotal (plan : List (ℕ × ℚ)) : ℚ :=
  plan.foldr (fun d a => d.2 + a) 0

/-- Apply a deduction plan to the `user_points` table
(each entry is an `update ... amount: { decrement: d }`). -/
def applyPlan (plan : List (ℕ × ℚ)) (points : List UserPoint) : List UserPoint :=
  plan.foldl
    (fun ps d => ps.map (fun p =>
      if p.id == d.1 then { p with amount := p.amount - d.2 } else p))
    points

/-- `TransactionService.deductPoints`.  The source applies the updates one by
one and throws `PointsError` afterwards if `remainingAmount > 0`; the throw
aborts the enclosing `prisma.$transaction`, so the committed-state semantics
is: nothing changes unless the plan covers the full amount. -/
def deductPoints (db : DB) (userId : ℕ) (amount : ℚ) (now : ℤ) : Except Err DB :=
  if amount ≤ 0 then .ok db
  else
    let plan := greedyPlan (eligibleLots db.points userId now) amount
    if amount - planTotal plan > 0 then .error .deductPointsFailed
    else .ok { db with points := applyPlan plan db.points }

/-- The `userPoint.aggregate` in STEP 4 of `createTransaction`: sum of the
user's lots with `isExpired: false` and `expiryDate: { gte: now }` (the
aggregate has no `amount > 0` filter, unlike `deductPoints`). -/
def availablePoints (points : List UserPoint) (userId : ℕ) (now : ℤ) : ℚ :=
  ((points.filter (fun p =>
    p.userId == userId && !p.isExpired && decide (now ≤ p.expiryDate))).map
      (·.amount)).sum

/-- The `eventVoucher.findFirst` in STEP 5 of `createTransaction`: code and
event match, and `startDate ≤ now ≤ endDate`.  There is no `usedCount`
filter here (unlike `VoucherService.validateVoucher`). -/
def lookupVoucher (vouchers : List Voucher) (code : String) (eventId : ℕ)
    (now : ℤ) : Option Voucher :=
  vouchers.find? (fun v =>
    v.code == code && v.eventId == eventId &&
    decide (v.startDate ≤ now) && decide (now ≤ v.endDate))

/-- STEP 5 of `createTransaction` (voucher validation).  A missing or
out-of-window code is not an error: the booking proceeds with no voucher.
`calculateDiscount` is called with three arguments, i.e. no cap. -/
def applyVoucher (vouchers : List Voucher) (eventId : ℕ)
    (voucherCode : Option String) (totalAmount : ℚ) (now : ℤ) :
    Except Err (ℚ × Option Voucher) :=
  match voucherCode with
  | none => .ok (0, none)
  | some code =>
    if strim code = "" then .ok (0, none)
    else
      match lookupVoucher vouchers (strim code) eventId now with
      | none => .ok (0, none)
      | some voucher =>
        if voucher.usedCount ≥ voucher.maxUsage then .error .voucherUsageLimitReached
        else if totalAmount < voucher.minPurchaseAmount then .error .voucherMinPurchase
        else .ok (calculateDiscount totalAmount voucher.discountType voucher.discountValue,
                  some voucher)

/-- The `userCoupon.findFirst` in STEP 6 of `createTransaction`: code and
user match, `isUsed: false`, `expiryDate: { gte: now }`. -/
def lookupCoupon (coupons : List UserCoupon) (code : String) (userId : ℕ)
    (now : ℤ) : Option UserCoupon :=
  coupons.find? (fun c =>
    c.code == code && c.userId == userId && !c.isUsed &&
    decide (now ≤ c.expiryDate))

/-- STEP 6 of `createTransaction` (coupon validation).  A missing, expired or
already-used code does not resolve and the booking proceeds with no coupon;
for a resolving coupon the template's `maxDiscountAmount` is passed to
`calculateDiscount` as the cap. -/
def applyCoupon (coupons : List UserCoupon) (userId : ℕ)
    (couponCode : Option String) (totalAmount : ℚ) (now : ℤ) :
    Except Err (ℚ × Option UserCoupon) :=
  match couponCode with
  | none => .ok (0, none)
  | some code =>
    if strim code = "" then .ok (0, none)
    else
      match lookupCoupon coupons (strim code) userId now with
      | none => .ok (0, none)
      | some coupon =>
        let template := coupon.couponTemplate
        if totalAmount < template.minPurchaseAmount then .error .couponMinimumNotMet
        else
          let maxDiscountSafe := template.maxDiscountAmount
          .ok (calculateDiscount totalAmount template.discountType template.discountValue
                maxDiscountSafe,
               some coupon)

/-- Entry of the `ticketUpdates` array built in STEP 2 of
`createTransaction` (the `name` string is dropped). -/
structure TicketUpdate where
  id : ℕ
  quantity : ℤ
  currentSold : ℤ
  maxQuantity : ℤ
  price : ℚ
deriving DecidableEq, Repr

/-- STEP 2 of `createTransaction`: per-line validation against the snapshot.
A line whose ticket type is not among the loaded rows is skipped
(`continue`); an invalid or unavailable quantity is an error;
otherwise `totalAmount` accumulates and a `TicketUpdate` is recorded. -/
def validateTickets (evTickets : List TicketType) :
    List ReqItem → Except Err (ℚ × List TicketUpdate)
  | [] => .ok (0, [])
  | item :: rest =>
    match evTickets.find? (fun t => t.id == item.ticketTypeId) with
    | none => validateTickets evTickets rest
    | some ticketType =>
      if item.quantity ≤ 0 then .error .invalidQuantity
      else if item.quantity > ticketType.quantity - ticketType.soldQuantity then
        .error .insufficientTickets
      else do
        let (amount, updates) ← validateTickets evTickets rest
        .ok ((item.quantity : ℚ) * ticketType.price + amount,
             TicketUpdate.mk ticketType.id item.quantity ticketType.soldQuantity
               ticketType.quantity ticketType.price :: updates)

/-- One `eventTicketType.update` with `soldQuantity: { increment: u.quantity }`. -/
def bumpSold (tts : List TicketType) (u : TicketUpdate) : List TicketType :=
  tts.map (fun t =>
    if t.id == u.id then { t with soldQuantity := t.soldQuantity + u.quantity } else t)

/-- STEP 9 of `createTransaction`: apply each increment in order and
re-check (`if (updated.soldQuantity > update.maxQuantity) throw`) after each
one; any violation aborts the whole transaction. -/
def applyTicketUpdates : List TicketUpdate → List TicketType → Except Err (List TicketType)
  | [], tts => .ok tts
  | u :: rest, tts =>
    let tts1 := bumpSold tts u
    match tts1.find? (fun t => t.id == u.id) with
    | none => .error .recordNotFound
    | some updated =>
      if updated.soldQuantity > u.maxQuantity then .error .ticketQuantityExceeded
      else applyTicketUpdates rest tts1

/-- The `items.create` array of STEP 8 of `createTransaction`: one line item
per requested line, with the snapshot price; the source's non-null assertion
(`find(...)!`) on a missing ticket type is modelled as an error. -/
def buildItems (evTickets : List TicketType) :
    List ReqItem → Except Err (List TransactionItem)
  | [] => .ok []
  | item :: rest =>
    match evTickets.find? (fun t => t.id == item.ticketTypeId) with
    | none => .error .recordNotFound
    | some ticketType => do
      let items ← buildItems evTickets rest
      .ok (TransactionItem.mk item.ticketTypeId item.quantity ticketType.price
            ((item.quantity : ℚ) * ticketType.price) :: items)

/-- `TransactionService.createTransaction`
(`src/services/voucherService.ts`, the FIXED version).  The whole method runs
inside one `prisma.$transaction`; any thrown error rolls everything back, so
the `.error` outcomes commit nothing.  The best-effort STEP 14 email has no
database effect and is omitted. -/
def createTransaction (db : DB) (userId : ℕ)
    (transactionData : TransactionCreateRequest) (now : ℤ) :
    Except Err (DB × Transaction) :=
  let eventId := transactionData.eventId
  let reqItems := transactionData.ticketTypes
  let pointsUsed := transactionData.pointsUsed
  -- validate input
  if reqItems.isEmpty then .error .invalidInput
  else
    -- ===== STEP 1: LOCK EVENT AND TICKETS =====
    match db.events.find? (fun e =>
        e.id == eventId && e.isPublished && decide (now < e.startDate)) with
    | none => .error .eventNotAvailable
    | some event =>
      let eventTicketTypes := db.ticketTypes.filter (fun t =>
        t.eventId == eventId && reqItems.any (fun i => i.ticketTypeId == t.id))
      -- validate we found all requested ticket types
      let foundIds := eventTicketTypes.map (·.id)
      if (reqItems.map (·.ticketTypeId)).any (fun i => !foundIds.contains i) then
        .error .ticketTypesNotFound
      else
        -- ===== STEP 2: VALIDATE TICKET AVAILABILITY =====
        match validateTickets eventTicketTypes reqItems with
        | .error e => .error e
        | .ok (totalAmount, ticketUpdates) =>
          -- ===== STEP 3: VALIDATE EVENT CAPACITY =====
          let totalTicketsRequested := sumQuantities reqItems
          if totalTicketsRequested > event.availableSeats - event.bookedSeats then
            .error .insufficientSeats
          else
            -- ===== STEP 4: VALIDATE POINTS =====
            match (if pointsUsed > 0 then
                if pointsUsed > totalAmount then .error Err.pointsExceedAmount
                else if pointsUsed > availablePoints db.points userId now then
                  .error Err.insufficientPoints
                else .ok pointsUsed
              else .ok (0 : ℚ) : Except Err ℚ) with
            | .error e => .error e
            | .ok pointsDiscount =>
              -- ===== STEP 5: VALIDATE VOUCHER =====
              match applyVoucher db.vouchers eventId transactionData.voucherCode
                  totalAmount now with
              | .error e => .error e
              | .ok (voucherDiscount, appliedVoucher) =>
                -- ===== STEP 6: VALIDATE COUPON =====
                match applyCoupon db.coupons userId transactionData.couponCode
                    totalAmount now with
                | .error e => .error e
                | .ok (couponDiscount, appliedCoupon) =>
                  -- ===== STEP 7: CALCULATE FINAL AMOUNT =====
                  let finalAmount := max 0 (totalAmount - pointsDiscount -
                    voucherDiscount - couponDiscount)
                  -- ===== STEP 8: CREATE TRANSACTION =====
                  match buildItems eventTicketTypes reqItems with
                  | .error e => .error e
                  | .ok items =>
                    let transaction : Transaction :=
                      { id := db.nextId, userId, eventId,
                        status := .WAITING_FOR_PAYMENT,
                        totalAmount, pointsUsed := pointsDiscount,
                        voucherId := appliedVoucher.map (·.id), voucherDiscount,
                        couponId := appliedCoupon.map (·.id), couponDiscount,
                        finalAmount, expiryTime := addHours now 2, items }
                    let db1 : DB :=
                      { db with
                        transactions := transaction :: db.transactions
                        nextId := db.nextId + 1 }
                    -- ===== STEP 9: UPDATE TICKET COUNTS =====
                    match applyTicketUpdates ticketUpdates db1.ticketTypes with
                    | .error e => .error e
                    | .ok newTicketTypes =>
                      let db2 : DB := { db1 with ticketTypes := newTicketTypes }
                      -- ===== STEP 10: UPDATE EVENT BOOKED SEATS =====
                      let db3 : DB := { db2 with events := db2.events.map (fun e =>
                        if e.id == eventId then
                          { e with bookedSeats :=
                              e.bookedSeats + totalTicketsRequested }
                        else e) }
                      -- ===== STEP 11: UPDATE VOUCHER USAGE =====
                      let db4 : DB := match appliedVoucher with
                        | some v => { db3 with vouchers := db3.vouchers.map (fun w =>
                            if w.id == v.id then
                              { w with usedCount := w.usedCount + 1 }
                            else w) }
                        | none => db3
                      -- ===== STEP 12: MARK COUPON AS USED =====
                      let db5 : DB := match appliedCoupon with
                        | some c => { db4 with coupons := db4.coupons.map (fun w =>
                            if w.id == c.id then { w with isUsed := true }
                            else w) }
                        | none => db4
                      -- ===== STEP 13: DEDUCT POINTS =====
                      -- (STEP 14, the best-effort email, has no database
                      -- effect)
                      if pointsUsed > 0 then
                        match deductPoints db5 userId pointsDiscount now with
                        | .error e => .error e
                        | .ok db6 => .ok (db6, transaction)
                      else .ok (db5, transaction)

/-- One step of scanning for the user's most recent lot: keep whichever of
the two candidates was created later (the earlier-listed one on ties). -/
def newerLot (acc : Option UserPoint) (p : UserPoint) : Option UserPoint :=
  match acc with
  | none => some p
  | some q => if p.createdAt > q.createdAt then some p else some q

/-- The `userPoint.findFirst` with `orderBy: { createdAt: 'desc' }` in
`TransactionService.restorePoints`: some lot of the user with maximal
`createdAt`. -/
def latestLot (points : List UserPoint) (userId : ℕ) : Option UserPoint :=
  (points.filter (fun p => p.userId == userId)).foldl newerLot none

/-- `TransactionService.restorePoints`: credit the whole amount to the user's
most-recently-created lot (whatever its `isExpired`/`expiryDate`), or create
a fresh `REFUND` lot expiring three months out when the user has no lots. -/
def restorePoints (db : DB) (userId : ℕ) (amount : ℚ) (now : ℤ) : DB :=
  if amount ≤ 0 then db
  else
    match latestLot db.points userId with
    | some existingPoint =>
      { db with points := db.points.map (fun p =>
          if p.id == existingPoint.id then { p with amount := p.amount + amount } else p) }
    | none =>
      { db with
        points := db.points ++
          [{ id := db.nextId, userId, amount, isExpired := false,
             expiryDate := addMonths now 3, createdAt := now }],
        nextId := db.nextId + 1 }

/-- The per-item `eventTicketType.update` loop of
`TransactionService.rollbackTransaction`
(`soldQuantity: { decrement: item.quantity }`). -/
def releaseTickets (items : List TransactionItem) (tts : List TicketType) :
    List TicketType :=
  items.foldl
    (fun (tts : List TicketType) (item : TransactionItem) => tts.map (fun t =>
      if t.id == item.ticketTypeId then
        { t with soldQuantity := t.soldQuantity - item.quantity }
      else t))
    tts

/-- `TransactionService.rollbackTransaction`: release the ticket counts and
booked seats, un-redeem the voucher and the coupon, restore debited points.
A missing transaction id is a silent no-op (`if (!transaction) return`). -/
def rollbackTransaction (db : DB) (transactionId : ℕ) (now : ℤ) : DB :=
  match db.transactions.find? (fun t => t.id == transactionId) with
  | none => db
  | some transaction =>
    let db : DB :=
      { db with ticketTypes := releaseTickets transaction.items db.ticketTypes }
    let totalTickets := itemsTotalQuantity transaction.items
    let db : DB := { db with events := db.events.map (fun e =>
      if e.id == transaction.eventId then
        { e with bookedSeats := e.bookedSeats - totalTickets }
      else e) }
    let db := match transaction.voucherId with
      | some vid => { db with vouchers := db.vouchers.map (fun v =>
          if v.id == vid then { v with usedCount := v.usedCount - 1 } else v) }
      | none => db
    let db := match transaction.couponId with
      | some cid => { db with coupons := db.coupons.map (fun c =>
          if c.id == cid then { c with isUsed := false } else c) }
      | none => db
    if transaction.pointsUsed > 0 then
      restorePoints db transaction.userId transaction.pointsUsed now
    else db

/-- `TransactionService.expireTransaction`: a no-op unless the transaction
exists and is still `WAITING_FOR_PAYMENT`; otherwise set the status to
`EXPIRED` and run the rollback. -/
def expireTransaction (db : DB) (transactionId : ℕ) (now : ℤ) : DB :=
  match db.transactions.find? (fun t => t.id == transactionId) with
  | none => db
  | some transaction =>
    if transaction.status ≠ .WAITING_FOR_PAYMENT then db
    else
      let db : DB := { db with transactions := db.transactions.map (fun t =>
        if t.id == transactionId then { t with status := .EXPIRED } else t) }
      rollbackTransaction db transactionId now

/-- `TransactionService.confirmTransaction`: only a transaction of the
organizer's own event in status `WAITING_FOR_CONFIRMATION` is found; accept
creates the attendee record and moves to `DONE`, reject rolls back and moves
to `REJECTED`. -/
def confirmTransaction (db : DB) (transactionId organizerId : ℕ)
    (isAccepted : Bool) (now : ℤ) : Except Err DB :=
  match db.transactions.find? (fun t =>
      t.id == transactionId &&
      db.events.any (fun e => e.id == t.eventId && e.organizerId == organizerId) &&
      t.status == .WAITING_FOR_CONFIRMATION) with
  | none => .error .transactionNotFound
  | some transaction =>
    let newStatus : TransactionStatus := if isAccepted then .DONE else .REJECTED
    let db1 : DB :=
      if isAccepted then
        { db with attendees := db.attendees ++
            [{ eventId := transaction.eventId, userId := transaction.userId,
               transactionId, ticketCount := itemsTotalQuantity transaction.items,
               totalPaid := transaction.finalAmount }] }
      else rollbackTransaction db transactionId now
    .ok { db1 with transactions := db1.transactions.map (fun t =>
      if t.id == transactionId then { t with status := newStatus } else t) }

/-- `TransactionService.uploadPaymentProof`: only the buyer's own
`WAITING_FOR_PAYMENT` transaction is found.  When the deadline has passed the
source calls `expireTransaction` and then throws `TRANSACTION_EXPIRED` out of
the same `prisma.$transaction` callback; the throw aborts that transaction,
so the expiry writes are rolled back and the committed state is unchanged —
hence the plain `.error` here.  Otherwise the proof is upserted and the
status moves to `WAITING_FOR_CONFIRMATION`. -/
def uploadPaymentProof (db : DB) (transactionId userId : ℕ) (now : ℤ) :
    Except Err DB :=
  match db.transactions.find? (fun t =>
      t.id == transactionId && t.userId == userId &&
      t.status == .WAITING_FOR_PAYMENT) with
  | none => .error .transactionNotFound
  | some transaction =>
    if now > transaction.expiryTime then
      .error .transactionExpired
    else
      let db : DB := { db with payments :=
        if db.payments.contains transactionId then db.payments
        else transactionId :: db.payments }
      .ok { db with transactions := db.transactions.map (fun t =>
        if t.id == transactionId then { t with status := .WAITING_FOR_CONFIRMATION }
        else t) }

/-! ## C5 — the `calculateDiscount` contract -/

/-- Counterexample to C5 as stated: the contract does not hold for every
`baseAmount` and every rule.  A `fixed` rule with a negative value yields a
negative discount (the code has no lower clamp), and a present cap of `0` is
ignored (JS truthiness — `maxDiscount && ...` is false for `0`), so the
result is not clamped to the cap. -/
theorem calculateDiscount_contract_counterexample :
    calculateDiscount 100 .FIXED (-5) none < 0 ∧
    calculateDiscount 100 .PERCENTAGE 50 (some 0) ≠
      min (min (100 * 50 / 100) 0) 100 := by
  constructor
  · norm_num [calculateDiscount]
  · norm_num [calculateDiscount]

/-- C5, amended: for nonnegative `baseAmount` and `discountValue`, and with
any present cap positive, `calculateDiscount` meets the contract: a
percentage rule gives `baseAmount * value / 100` clamped to the cap (when
present) and then to `baseAmount`; a fixed rule gives
`min(value, baseAmount)`; the result always lies in `[0, baseAmount]`. -/
theorem calculateDiscount_contract (amount discountValue : ℚ)
    (maxDiscount : Option ℚ) (dt : DiscountType)
    (hamt : 0 ≤ amount) (hval : 0 ≤ discountValue)
    (hcap : ∀ c, maxDiscount = some c → 0 < c) :
    (dt = .PERCENTAGE → maxDiscount = none →
      calculateDiscount amount dt discountValue maxDiscount =
        min (amount * discountValue / 100) amount) ∧
    (∀ c, dt = .PERCENTAGE → maxDiscount = some c →
      calculateDiscount amount dt discountValue maxDiscount =
        min (min (amount * discountValue / 100) c) amount) ∧
    (dt = .FIXED →
      calculateDiscount amount dt discountValue maxDiscount =
        min discountValue amount) ∧
    0 ≤ calculateDiscount amount dt discountValue maxDiscount ∧
    calculateDiscount amount dt discountValue maxDiscount ≤ amount := by
  have hraw : 0 ≤ amount * discountValue / 100 := by positivity
  refine ⟨?_, ?_, ?_, ?_, ?_⟩
  · rintro rfl rfl
    simp [calculateDiscount]
  · rintro c rfl rfl
    have hc := hcap c rfl
    simp only [calculateDiscount]
    show (min (if c ≠ 0 ∧ amount * discountValue / 100 > c then c
        else amount * discountValue / 100) amount) =
      min (min (amount * discountValue / 100) c) amount
    rcases le_or_lt (amount * discountValue / 100) c with h | h
    · rw [if_neg (by
        push_neg
        intro _
        exact h), min_eq_left h]
    · rw [if_pos ⟨ne_of_gt hc, h⟩, min_eq_right h.le]
  · rintro rfl
    simp [calculateDiscount]
  · cases dt <;> simp only [calculateDiscount]
    · refine le_min ?_ hamt
      cases maxDiscount with
      | none => exact hraw
      | some c =>
        have hc := hcap c rfl
        show 0 ≤ if c ≠ 0 ∧ amount * discountValue / 100 > c then c
          else amount * discountValue / 100
        split_ifs
        · exact hc.le
        · exact hraw
    · exact le_min hval hamt
  · cases dt <;> simp only [calculateDiscount]
    · cases maxDiscount with
      | none => exact min_le_right _ _
      | some c => exact min_le_right _ _
    · exact min_le_right _ _

/-- Witness for `calculateDiscount_contract` at the spec's own scenario:
base 120000, 10%-percentage rule with cap 20000. -/
theorem calculateDiscount_contract_witness :
    calculateDiscount 120000 .PERCENTAGE 10 (some 20000) =
      min (min (120000 * 10 / 100) 20000) 120000 := by
  have h := calculateDiscount_contract 120000 10 (some 20000) .PERCENTAGE
    (by norm_num) (by norm_num)
    (by intro c hc; simp only [Option.some.injEq] at hc; subst hc; norm_num)
  exact h.2.1 20000 rfl rfl

/-! ## C4 — silent skip of unresolved codes vs explicit errors -/

/-- Projection: the transaction returned by a successful `createTransaction`. -/
def createdTransaction? (r : Except Err (DB × Transaction)) : Option Transaction :=
  match r with
  | .ok (_, t) => some t
  | .error _ => none

/-- Projection: the database committed by a successful `createTransaction`. -/
def committedDB? (r : Except Err (DB × Transaction)) : Option DB :=
  match r with
  | .ok (db, _) => some db
  | .error _ => none

namespace Demo

/-- A ticket type with capacity 5, price 100000, nothing sold. -/
def tt : TicketType :=
  { id := 1, eventId := 10, price := 100000, quantity := 5, soldQuantity := 0 }

/-- A published future event with 5 seats. -/
def ev : Event :=
  { id := 10, organizerId := 7, isPublished := true, startDate := 1000000,
    availableSeats := 5, bookedSeats := 0 }

/-- An in-window 10%-percentage voucher with 3 allowed usages. -/
def voucher : Voucher :=
  { id := 20, eventId := 10, code := "SAVE", discountType := .PERCENTAGE,
    discountValue := 10, maxUsage := 3, usedCount := 0, minPurchaseAmount := 0,
    startDate := 0, endDate := 999999 }

/-- A known, unexpired coupon of user 2 that has already been used. -/
def usedCoupon : UserCoupon :=
  { id := 30, userId := 2, code := "CPN", isUsed := true, expiryDate := 999999,
    couponTemplate :=
      { discountType := .FIXED, discountValue := 5000,
        maxDiscountAmount := none, minPurchaseAmount := 0 } }

/-- Database for the used-coupon run. -/
def dbUsedCoupon : DB :=
  { events := [ev], ticketTypes := [tt], vouchers := [voucher],
    coupons := [usedCoupon], points := [], transactions := [], attendees := [],
    payments := [], nextId := 100 }

/-- A booking request of user 2 quoting the already-used coupon code. -/
def reqUsedCoupon : TransactionCreateRequest :=
  { eventId := 10, ticketTypes := [{ ticketTypeId := 1, quantity := 2 }],
    pointsUsed := 0, voucherCode := none, couponCode := some "CPN" }

end Demo

/-- Counterexample to C4 as stated: the coupon code `"CPN"` is known,
in-window and unexpired but already used (`isUsed = true`).  The claim says
`createBooking` must fail with an explicit error; instead the lookup's
`isUsed: false` filter makes the code unresolved and the booking succeeds
with the coupon silently skipped (zero coupon discount, no coupon
attached). -/
theorem voucher_coupon_skip_counterexample :
    (createdTransaction? (createTransaction Demo.dbUsedCoupon 2 Demo.reqUsedCoupon 500)).map
      Transaction.couponDiscount = some 0 ∧
    (createdTransaction? (createTransaction Demo.dbUsedCoupon 2 Demo.reqUsedCoupon 500)).map
      Transaction.couponId = some none ∧
    Demo.usedCoupon.isUsed = true ∧
    Demo.usedCoupon.code = "CPN" ∧ ((500 : ℤ) ≤ Demo.usedCoupon.expiryDate) := by
  have h : createdTransaction? (createTransaction Demo.dbUsedCoupon 2 Demo.reqUsedCoupon 500) =
      some {  id := 100, userId := 2, eventId := 10, status := .WAITING_FOR_PAYMENT,
              totalAmount := 200000, pointsUsed := 0, voucherId := none,
              voucherDiscount := 0, couponId := none, couponDiscount := 0,
              finalAmount := 200000, expiryTime := addHours 500 2,
              items := [{ ticketTypeId := 1, quantity := 2, pricePerTicket := 100000,
                          subtotal := 200000 }] } := by
    norm_num [createdTransaction?, createTransaction, Demo.dbUsedCoupon, Demo.reqUsedCoupon,
      Demo.ev, Demo.tt, Demo.voucher, Demo.usedCoupon, validateTickets, buildItems,
      applyTicketUpdates, bumpSold, applyVoucher, applyCoupon, lookupVoucher, lookupCoupon,
      availablePoints, sumQuantities, deductPoints, addHours, calculateDiscount,
      bind, Except.bind, pure, Except.pure, List.find?, List.filter, List.any, List.map]
  refine ⟨by rw [h]; rfl, by rw [h]; rfl, rfl, rfl, by norm_num [Demo.usedCoupon]⟩

/-- C4, amended: in `createTransaction`, a supplied voucher code that does
not resolve (unknown, wrong event, or out of its date window) is silently
skipped — zero voucher discount, no error; likewise a coupon code that does
not resolve (unknown, wrong user, expired, **or already used** — `isUsed` is
part of the lookup filter, so a used coupon is skipped rather than
rejected).  A code that does resolve but fails a numeric limit is an
explicit error: an exhausted voucher (`usedCount ≥ maxUsage`), a voucher
minimum purchase above `totalAmount`, or a coupon-template minimum purchase
above `totalAmount`. -/
theorem voucher_coupon_skip_or_error
    (vouchers : List Voucher) (coupons : List UserCoupon)
    (eventId userId : ℕ) (code : String) (totalAmount : ℚ) (now : ℤ)
    (hcode : ¬ strim code = "") :
    (lookupVoucher vouchers (strim code) eventId now = none →
      applyVoucher vouchers eventId (some code) totalAmount now = .ok (0, none)) ∧
    (∀ v, lookupVoucher vouchers (strim code) eventId now = some v →
      v.usedCount ≥ v.maxUsage →
      applyVoucher vouchers eventId (some code) totalAmount now =
        .error .voucherUsageLimitReached) ∧
    (∀ v, lookupVoucher vouchers (strim code) eventId now = some v →
      v.usedCount < v.maxUsage → totalAmount < v.minPurchaseAmount →
      applyVoucher vouchers eventId (some code) totalAmount now =
        .error .voucherMinPurchase) ∧
    (lookupCoupon coupons (strim code) userId now = none →
      applyCoupon coupons userId (some code) totalAmount now = .ok (0, none)) ∧
    (∀ c, lookupCoupon coupons (strim code) userId now = some c →
      totalAmount < c.couponTemplate.minPurchaseAmount →
      applyCoupon coupons userId (some code) totalAmount now =
        .error .couponMinimumNotMet) ∧
    (∀ c ∈ coupons, c.isUsed = true →
      lookupCoupon coupons (strim code) userId now ≠ some c) := by
  refine ⟨?_, ?_, ?_, ?_, ?_, ?_⟩
  · intro hnone
    simp only [applyVoucher, if_neg hcode, hnone]
  · intro v hv hexh
    simp only [applyVoucher, if_neg hcode, hv, if_pos hexh]
  · intro v hv hlt hmin
    simp only [applyVoucher, if_neg hcode, hv, if_neg (not_le.mpr hlt), if_pos hmin]
  · intro hnone
    simp only [applyCoupon, if_neg hcode, hnone]
  · intro c hc hmin
    simp only [applyCoupon, if_neg hcode, hc, if_pos hmin]
  · intro c hmem hused hfound
    have := List.find?_some hfound
    simp only [Bool.and_eq_true, Bool.not_eq_true'] at this
    exact absurd hused (by simp [this.1.2])

/-- Witness for `voucher_coupon_skip_or_error`: the unknown code `"NOPE"`
and the already-used coupon code `"CPN"` are both silently skipped. -/
theorem voucher_coupon_skip_or_error_witness :
    applyVoucher [Demo.voucher] 10 (some "NOPE") 200000 500 = .ok (0, none) ∧
    applyCoupon [Demo.usedCoupon] 2 (some "NOPE") 200000 500 = .ok (0, none) := by
  have h := voucher_coupon_skip_or_error [Demo.voucher] [Demo.usedCoupon] 10 2
    "NOPE" 200000 500
    (by decide)
  exact ⟨h.1 (by rfl), h.2.2.2.1 (by rfl)⟩

/-! ## C6 — the `deductPoints` contract -/

/-- Amount a deduction plan takes from lot id `i`. -/
def planFor (plan : List (ℕ × ℚ)) (i : ℕ) : ℚ :=
  ((plan.filter (fun d => d.1 == i)).map (·.2)).sum

/-- Total amount held by a list of lots. -/
def sumAmounts (l : List UserPoint) : ℚ :=
  (l.map (·.amount)).sum

/-- Raw total of a user's point amounts (all lots, expired or not). -/
def rawPoints (points : List UserPoint) (userId : ℕ) : ℚ :=
  ((points.filter (fun p => p.userId == userId)).map (·.amount)).sum

/-- The amount sitting on lot id `i` (the lot's amount when ids are unique). -/
def lotAmount (points : List UserPoint) (i : ℕ) : ℚ :=
  ((points.filter (fun p => p.id == i)).map (·.amount)).sum

theorem planFor_nil (i : ℕ) : planFor [] i = 0 := rfl

theorem planFor_cons (d : ℕ × ℚ) (plan : List (ℕ × ℚ)) (i : ℕ) :
    planFor (d :: plan) i = (if d.1 = i then d.2 else 0) + planFor plan i := by
  by_cases h : d.1 = i <;> simp [planFor, h]

theorem planTotal_cons (d : ℕ × ℚ) (plan : List (ℕ × ℚ)) :
    planTotal (d :: plan) = d.2 + planTotal plan := rfl

/-- A plan never touches an id that is not among the walked lots. -/
theorem greedyPlan_planFor_not_mem (l : List UserPoint) (r : ℚ) (i : ℕ)
    (h : ∀ p ∈ l, p.id ≠ i) : planFor (greedyPlan l r) i = 0 := by
  induction l generalizing r with
  | nil => simp [greedyPlan, planFor]
  | cons p rest ih =>
    simp only [greedyPlan]
    split
    · simp [planFor]
    · rw [planFor_cons, if_neg (h p (by simp)), zero_add]
      exact ih _ (fun q hq => h q (by simp [hq]))

/-- If a greedy plan assigns anything at all, the requested amount was
positive on entry. -/
theorem greedyPlan_planFor_pos (l : List UserPoint) (r : ℚ) (i : ℕ)
    (h : planFor (greedyPlan l r) i ≠ 0) : 0 < r := by
  cases l with
  | nil => simp [greedyPlan, planFor] at h
  | cons p rest =>
    by_contra hr
    simp only [greedyPlan, if_pos (not_lt.mp hr)] at h
    exact h (planFor_nil i)

/-- The greedy walk takes `min r (sum of the lots)` in total. -/
theorem greedyPlan_total (l : List UserPoint) (r : ℚ) (hr : 0 ≤ r)
    (hpos : ∀ p ∈ l, 0 < p.amount) :
    planTotal (greedyPlan l r) = min r (sumAmounts l) := by
  induction l generalizing r with
  | nil => simp [greedyPlan, planTotal, sumAmounts, min_eq_right hr]
  | cons p rest ih =>
    have hp : 0 < p.amount := hpos p (by simp)
    have hrest : ∀ q ∈ rest, 0 < q.amount := fun q hq => hpos q (by simp [hq])
    have hsumrest : 0 ≤ sumAmounts rest := by
      have : ∀ q ∈ rest, 0 ≤ q.amount := fun q hq => (hrest q hq).le
      simp only [sumAmounts]
      exact List.sum_nonneg (by
        intro x hx
        obtain ⟨q, hq, rfl⟩ := List.mem_map.mp hx
        exact this q hq)
    simp only [greedyPlan]
    split
    · have hr0 : r = 0 := le_antisymm (by assumption) hr
      subst hr0
      have : 0 ≤ sumAmounts (p :: rest) := by
        simp only [sumAmounts, List.map_cons, List.sum_cons]
        exact add_nonneg hp.le hsumrest
      simp [planTotal, min_eq_left this]
    · rename_i hrpos
      push_neg at hrpos
      have hsc : sumAmounts (p :: rest) = p.amount + sumAmounts rest := by
        simp [sumAmounts]
      have harg : 0 ≤ r - min r p.amount := by
        rcases min_cases r p.amount with ⟨h1, _⟩ | ⟨h1, _⟩ <;> rw [h1] <;> linarith
      rw [planTotal_cons, ih (r - min r p.amount) harg hrest, hsc]
      show min r p.amount + min (r - min r p.amount) (sumAmounts rest)
          = min r (p.amount + sumAmounts rest)
      rcases le_or_lt r p.amount with hcase | hcase
      · rw [min_eq_left hcase, sub_self, min_eq_left hsumrest,
          min_eq_left (by linarith : r ≤ p.amount + sumAmounts rest)]
        ring
      · rw [min_eq_right hcase.le]
        rcases le_or_lt (r - p.amount) (sumAmounts rest) with h2 | h2
        · rw [min_eq_left h2,
            min_eq_left (by linarith : r ≤ p.amount + sumAmounts rest)]
          ring
        · rw [min_eq_right h2.le,
            min_eq_right (by linarith : p.amount + sumAmounts rest ≤ r)]

/-- Each lot loses at most its own amount, and never gains. -/
theorem greedyPlan_planFor_bounds (l : List UserPoint) (r : ℚ) (hr : 0 ≤ r)
    (hids : l.Pairwise (fun a b => a.id ≠ b.id))
    (hpos : ∀ p ∈ l, 0 < p.amount) :
    ∀ p ∈ l, 0 ≤ planFor (greedyPlan l r) p.id ∧
      planFor (greedyPlan l r) p.id ≤ p.amount := by
  induction l generalizing r with
  | nil => simp
  | cons x rest ih =>
    have hx : 0 < x.amount := hpos x (by simp)
    have hrest : ∀ q ∈ rest, 0 < q.amount := fun q hq => hpos q (by simp [hq])
    have hxid : ∀ q ∈ rest, x.id ≠ q.id := by
      intro q hq
      exact (List.pairwise_cons.mp hids).1 q hq
    have hidsr : rest.Pairwise (fun a b => a.id ≠ b.id) :=
      (List.pairwise_cons.mp hids).2
    intro p hp
    simp only [greedyPlan]
    split
    · simpa [planFor] using (hpos p hp).le
    · rename_i hrpos
      push_neg at hrpos
      have harg : 0 ≤ r - min r x.amount := by
        rcases min_cases r x.amount with ⟨h1, _⟩ | ⟨h1, _⟩ <;> rw [h1] <;> linarith
      rcases List.mem_cons.mp hp with rfl | hpr
      · rw [planFor_cons, if_pos rfl,
          greedyPlan_planFor_not_mem rest (r - min r p.amount) p.id
            (fun q hq => (hxid q hq).symm),
          add_zero]
        constructor
        · positivity
        · exact min_le_right _ _
      · rw [planFor_cons, if_neg (hxid p hpr), zero_add]
        exact ih (r - min r x.amount) harg hidsr hrest p hpr

/-- Greedy consumption order: if any lot after `p` in the walk order was
assigned a deduction, then `p` was consumed in full. -/
theorem greedyPlan_prefix_full (l₁ : List UserPoint) (p : UserPoint)
    (l₂ : List UserPoint) (q : UserPoint) (l₃ : List UserPoint) (r : ℚ)
    (hr : 0 ≤ r)
    (hpos : ∀ x ∈ l₁ ++ p :: l₂ ++ q :: l₃, 0 < x.amount)
    (hids : (l₁ ++ p :: l₂ ++ q :: l₃).Pairwise (fun a b => a.id ≠ b.id))
    (htouch : planFor (greedyPlan (l₁ ++ p :: l₂ ++ q :: l₃) r) q.id ≠ 0) :
    planFor (greedyPlan (l₁ ++ p :: l₂ ++ q :: l₃) r) p.id = p.amount := by
  induction l₁ generalizing r with
  | nil =>
    simp only [List.nil_append] at *
    have hqmem : q ∈ l₂ ++ q :: l₃ := by simp
    have hpq : p.id ≠ q.id := (List.pairwise_cons.mp hids).1 q (by simp)
    have hrestids : (l₂ ++ q :: l₃).Pairwise (fun a b => a.id ≠ b.id) :=
      (List.pairwise_cons.mp hids).2
    have hpid : ∀ x ∈ l₂ ++ q :: l₃, p.id ≠ x.id :=
      fun x hx => (List.pairwise_cons.mp hids).1 x hx
    simp only [greedyPlan] at htouch ⊢
    split at htouch
    · simp [planFor] at htouch
    · rename_i hrpos
      push_neg at hrpos
      rw [planFor_cons, if_neg hpq, zero_add] at htouch
      rw [if_neg (not_le.mpr hrpos)]
      have hrd : 0 < r - min r p.amount := greedyPlan_planFor_pos _ _ _ htouch
      have hdp : min r p.amount = p.amount := by
        rcases min_cases r p.amount with ⟨h1, h2⟩ | ⟨h1, _⟩
        · exfalso
          rw [h1] at hrd
          simp at hrd
        · exact h1
      rw [planFor_cons, if_pos rfl]
      have hz : planFor (greedyPlan (l₂ ++ q :: l₃) (r - min r p.amount)) p.id = 0 :=
        greedyPlan_planFor_not_mem _ _ _ (fun x hx => (hpid x hx).symm)
      simpa [hz] using hdp
  | cons x l₁' ih =>
    simp only [List.cons_append] at *
    have hxq : x.id ≠ q.id :=
      (List.pairwise_cons.mp hids).1 q (by simp)
    have hxp : x.id ≠ p.id :=
      (List.pairwise_cons.mp hids).1 p (by simp)
    have hrestids := (List.pairwise_cons.mp hids).2
    have hrestpos : ∀ y ∈ l₁' ++ p :: l₂ ++ q :: l₃, 0 < y.amount :=
      fun y hy => hpos y (List.mem_cons_of_mem x hy)
    simp only [greedyPlan] at htouch ⊢
    split at htouch
    · simp [planFor] at htouch
    · rename_i hrpos
      push_neg at hrpos
      rw [planFor_cons, if_neg hxq, zero_add] at htouch
      rw [if_neg (not_le.mpr hrpos)]
      have harg : 0 ≤ r - min r x.amount := by
        rcases min_cases r x.amount with ⟨h1, _⟩ | ⟨h1, _⟩ <;> rw [h1] <;> linarith
      rw [planFor_cons, if_neg hxp, zero_add]
      exact ih _ harg hrestpos hrestids htouch

/-- `applyPlan` in closed form: each row loses the total its id is assigned. -/
theorem applyPlan_eq_map (plan : List (ℕ × ℚ)) (pts : List UserPoint) :
    applyPlan plan pts =
      pts.map (fun p => { p with amount := p.amount - planFor plan p.id }) := by
  induction plan generalizing pts with
  | nil =>
    simp only [applyPlan, List.foldl_nil, planFor_nil, sub_zero]
    exact (List.map_id' pts).symm
  | cons d plan ih =>
    simp only [applyPlan, List.foldl_cons] at *
    rw [ih, List.map_map]
    refine List.map_congr_left ?_
    intro p _
    simp only [Function.comp_apply, planFor_cons]
    by_cases h : p.id = d.1
    · simp only [beq_iff_eq, if_pos h, if_pos h.symm]
      congr 1
      ring
    · have h' : ¬ d.1 = p.id := fun hh => h hh.symm
      simp only [beq_iff_eq, if_neg h, if_neg h', zero_add]

/-- Every entry of a greedy plan names one of the walked lots. -/
theorem greedyPlan_mem (l : List UserPoint) (r : ℚ) :
    ∀ d ∈ greedyPlan l r, ∃ p ∈ l, d.1 = p.id := by
  induction l generalizing r with
  | nil => simp [greedyPlan]
  | cons x rest ih =>
    intro d hd
    simp only [greedyPlan] at hd
    split at hd
    · simp at hd
    · rcases List.mem_cons.mp hd with rfl | hd2
      · exact ⟨x, by simp⟩
      · obtain ⟨p, hp, hid⟩ := ih _ d hd2
        exact ⟨p, List.mem_cons_of_mem x hp, hid⟩

theorem rawPoints_nil (u : ℕ) : rawPoints [] u = 0 := rfl

theorem rawPoints_cons (x : UserPoint) (l : List UserPoint) (u : ℕ) :
    rawPoints (x :: l) u =
      (if x.userId = u then x.amount else 0) + rawPoints l u := by
  by_cases h : x.userId = u <;> simp [rawPoints, h]

/-- Decrementing the unique row with a given id lowers the owner's raw
balance by exactly that amount. -/
theorem rawPoints_map_dec (pts : List UserPoint) (u j : ℕ) (d : ℚ)
    (hids : pts.Pairwise (fun a b => a.id ≠ b.id))
    (hmem : ∃ p ∈ pts, p.id = j ∧ p.userId = u) :
    rawPoints (pts.map (fun p =>
        if p.id == j then { p with amount := p.amount - d } else p)) u =
      rawPoints pts u - d := by
  induction pts with
  | nil => simp at hmem
  | cons x rest ih =>
    have hxids : ∀ q ∈ rest, x.id ≠ q.id := fun q hq =>
      (List.pairwise_cons.mp hids).1 q hq
    have hidsr := (List.pairwise_cons.mp hids).2
    simp only [List.map_cons]
    by_cases hx : x.id = j
    · have hxu : x.userId = u := by
        obtain ⟨p, hp, hpj, hpu⟩ := hmem
        rcases List.mem_cons.mp hp with rfl | hpr
        · exact hpu
        · exact absurd (hpj.trans hx.symm).symm (hxids p hpr)
      have hrest : rest.map (fun p =>
          if p.id == j then { p with amount := p.amount - d } else p) = rest := by
        refine (List.map_congr_left ?_).trans (List.map_id' rest)
        intro q hq
        have hq' : ¬ q.id = j := fun hh => (hxids q hq) (hx.trans hh.symm)
        simp [hq']
      rw [if_pos (by simp [hx]), hrest]
      simp only [rawPoints_cons, if_pos hxu]
      ring
    · obtain ⟨p, hp, hpj, hpu⟩ := hmem
      rcases List.mem_cons.mp hp with rfl | hpr
      · exact absurd hpj hx
      · rw [if_neg (by simp [hx])]
        simp only [rawPoints_cons, ih hidsr ⟨p, hpr, hpj, hpu⟩]
        ring

/-- Applying a deduction plan whose entries all hit distinct rows of one
user lowers that user's raw balance by the plan total. -/
theorem rawPoints_applyPlan (plan : List (ℕ × ℚ)) (pts : List UserPoint) (u : ℕ)
    (hids : pts.Pairwise (fun a b => a.id ≠ b.id))
    (hplan : ∀ d ∈ plan, ∃ p ∈ pts, p.id = d.1 ∧ p.userId = u) :
    rawPoints (applyPlan plan pts) u = rawPoints pts u - planTotal plan := by
  induction plan generalizing pts with
  | nil => simp [applyPlan, planTotal]
  | cons d plan ih =>
    simp only [applyPlan, List.foldl_cons] at *
    have hstep := rawPoints_map_dec pts u d.1 d.2 hids (hplan d (by simp))
    have hids' : (pts.map (fun p =>
        if p.id == d.1 then { p with amount := p.amount - d.2 } else p)).Pairwise
        (fun a b => a.id ≠ b.id) := by
      rw [List.pairwise_map]
      refine hids.imp_of_mem ?_
      intro a b _ _ hab
      have haid : (if a.id == d.1 then { a with amount := a.amount - d.2 }
          else a).id = a.id := by split <;> rfl
      have hbid : (if b.id == d.1 then { b with amount := b.amount - d.2 }
          else b).id = b.id := by split <;> rfl
      rw [haid, hbid]
      exact hab
    have hplan' : ∀ e ∈ plan, ∃ p ∈ pts.map (fun p =>
        if p.id == d.1 then { p with amount := p.amount - d.2 } else p),
        p.id = e.1 ∧ p.userId = u := by
      intro e he
      obtain ⟨p, hp, hpj, hpu⟩ := hplan e (by simp [he])
      refine ⟨if p.id == d.1 then { p with amount := p.amount - d.2 } else p,
        List.mem_map_of_mem _ hp, ?_, ?_⟩
      · split <;> exact hpj
      · split <;> exact hpu
    have hrec := ih _ hids' hplan'
    rw [hrec, hstep, planTotal_cons]
    ring

instance instIsTotalExpiryLE :
    IsTotal UserPoint (fun a b => a.expiryDate ≤ b.expiryDate) :=
  ⟨fun _ _ => le_total _ _⟩

instance instIsTransExpiryLE :
    IsTrans UserPoint (fun a b => a.expiryDate ≤ b.expiryDate) :=
  ⟨fun _ _ _ h1 h2 => le_trans h1 h2⟩

/-- Two rows of a table with pairwise-distinct keys that share a key are the
same row. -/
theorem mem_eq_of_pairwise_key {α κ : Type} (key : α → κ) {l : List α}
    (hp : l.Pairwise (fun a b => key a ≠ key b)) {a b : α}
    (ha : a ∈ l) (hb : b ∈ l) (h : key a = key b) : a = b := by
  induction l with
  | nil => cases ha
  | cons x rest ih =>
    rcases List.mem_cons.mp ha with rfl | ha'
    · rcases List.mem_cons.mp hb with rfl | hb'
      · rfl
      · exact absurd h ((List.pairwise_cons.mp hp).1 b hb')
    · rcases List.mem_cons.mp hb with rfl | hb'
      · exact absurd h.symm ((List.pairwise_cons.mp hp).1 a ha')
      · exact ih (List.pairwise_cons.mp hp).2 ha' hb'

theorem eligibleLots_perm (pts : List UserPoint) (u : ℕ) (now : ℤ) :
    (eligibleLots pts u now).Perm (pts.filter (isEligibleLot u now)) :=
  List.perm_insertionSort _ _

theorem eligibleLots_mem_iff (pts : List UserPoint) (u : ℕ) (now : ℤ)
    (p : UserPoint) :
    p ∈ eligibleLots pts u now ↔ p ∈ pts ∧ isEligibleLot u now p = true := by
  rw [(eligibleLots_perm pts u now).mem_iff, List.mem_filter]

theorem eligibleLots_pos (pts : List UserPoint) (u : ℕ) (now : ℤ) :
    ∀ p ∈ eligibleLots pts u now, 0 < p.amount := by
  intro p hp
  have := ((eligibleLots_mem_iff pts u now p).mp hp).2
  simp only [isEligibleLot, Bool.and_eq_true, decide_eq_true_eq] at this
  exact this.2

theorem eligibleLots_user (pts : List UserPoint) (u : ℕ) (now : ℤ) :
    ∀ p ∈ eligibleLots pts u now, p.userId = u := by
  intro p hp
  have := ((eligibleLots_mem_iff pts u now p).mp hp).2
  simp only [isEligibleLot, Bool.and_eq_true, beq_iff_eq] at this
  exact this.1.1.1

theorem eligibleLots_pairwise (pts : List UserPoint) (u : ℕ) (now : ℤ)
    (hids : pts.Pairwise (fun a b => a.id ≠ b.id)) :
    (eligibleLots pts u now).Pairwise (fun a b => a.id ≠ b.id) := by
  refine ((eligibleLots_perm pts u now).pairwise_iff ?_).mpr (hids.filter _)
  intro a b hab h
  exact hab h.symm

theorem eligibleLots_sorted (pts : List UserPoint) (u : ℕ) (now : ℤ) :
    (eligibleLots pts u now).Pairwise (fun a b => a.expiryDate ≤ b.expiryDate) :=
  List.sorted_insertionSort _ _

theorem eligibleLots_sum (pts : List UserPoint) (u : ℕ) (now : ℤ) :
    sumAmounts (eligibleLots pts u now) =
      sumAmounts (pts.filter (isEligibleLot u now)) := by
  exact ((eligibleLots_perm pts u now).map _).sum_eq

/-- In a sorted list, a strictly earlier expiry comes strictly earlier. -/
theorem sorted_split_of_lt {l : List UserPoint}
    (hs : l.Pairwise (fun a b => a.expiryDate ≤ b.expiryDate))
    {p q : UserPoint} (hp : p ∈ l) (hq : q ∈ l)
    (hlt : p.expiryDate < q.expiryDate) :
    ∃ l₁ l₂ l₃, l = l₁ ++ p :: l₂ ++ q :: l₃ := by
  obtain ⟨s, t, rfl⟩ := List.append_of_mem hp
  have hqp : q ≠ p := fun h => absurd hlt (by simp [h])
  have hq' : q ∈ s ∨ q ∈ t := by
    rcases List.mem_append.mp hq with h | h
    · exact .inl h
    · rcases List.mem_cons.mp h with rfl | h2
      · exact absurd rfl hqp
      · exact .inr h2
  rcases hq' with hqs | hqt
  · exfalso
    have := (List.pairwise_append.mp hs).2.2 q hqs p (by simp)
    exact absurd hlt (not_lt.mpr this)
  · obtain ⟨t₁, t₂, rfl⟩ := List.append_of_mem hqt
    exact ⟨s, t₁, t₂, by simp⟩

/-- With pairwise-distinct ids, `lotAmount` reads off the row's amount. -/
theorem lotAmount_unique (pts : List UserPoint)
    (hids : pts.Pairwise (fun a b => a.id ≠ b.id)) (x : UserPoint)
    (hx : x ∈ pts) : lotAmount pts x.id = x.amount := by
  induction pts with
  | nil => cases hx
  | cons y rest ih =>
    have hyids : ∀ q ∈ rest, y.id ≠ q.id := fun q hq =>
      (List.pairwise_cons.mp hids).1 q hq
    rcases List.mem_cons.mp hx with rfl | hx'
    · have hrest : rest.filter (fun p => p.id == x.id) = [] := by
        rw [List.filter_eq_nil_iff]
        intro q hq
        simp only [beq_iff_eq]
        exact fun h => (hyids q hq) h.symm
      simp [lotAmount, List.filter_cons, hrest]
    · have hyx : ¬ y.id = x.id := fun h =>
        (hyids x hx') h
      simp only [lotAmount, List.filter_cons]
      rw [if_neg (by simp [hyx])]
      exact ih (List.pairwise_cons.mp hids).2 hx'

/-- C6: the `deductPoints` contract.  Only eligible lots (non-expired flag,
unexpired date, positive balance) are touched, in soonest-expiry-first
order, greedily; a shortfall of eligible balance fails with the points
error and (by transaction atomicity) leaves every lot unchanged; lots are
never deleted — a partially consumed lot keeps its reduced balance;
consumption is greedy: whenever a later-expiring eligible lot was touched,
every strictly-earlier-expiring eligible lot was drained to zero. -/
theorem deductPoints_contract (db : DB) (userId : ℕ) (amount : ℚ) (now : ℤ)
    (hamt : 0 < amount)
    (hids : db.points.Pairwise (fun a b => a.id ≠ b.id)) :
    (sumAmounts (db.points.filter (isEligibleLot userId now)) < amount →
      deductPoints db userId amount now = .error .deductPointsFailed) ∧
    (amount ≤ sumAmounts (db.points.filter (isEligibleLot userId now)) →
      ∃ pts',
        deductPoints db userId amount now = .ok { db with points := pts' } ∧
        List.Forall₂ (fun p q =>
          q.id = p.id ∧ q.userId = p.userId ∧ q.isExpired = p.isExpired ∧
          q.expiryDate = p.expiryDate ∧ q.createdAt = p.createdAt ∧
          q.amount ≤ p.amount ∧
          (isEligibleLot userId now p = true → 0 ≤ q.amount) ∧
          (isEligibleLot userId now p = false → q = p)) db.points pts' ∧
        rawPoints pts' userId = rawPoints db.points userId - amount ∧
        (∀ p ∈ db.points, ∀ q ∈ db.points,
          isEligibleLot userId now p = true → isEligibleLot userId now q = true →
          p.expiryDate < q.expiryDate → lotAmount pts' q.id < q.amount →
          lotAmount pts' p.id = 0)) := by
  have hpos := eligibleLots_pos db.points userId now
  have hepair := eligibleLots_pairwise db.points userId now hids
  have htot := greedyPlan_total (eligibleLots db.points userId now) amount
    hamt.le hpos
  rw [eligibleLots_sum] at htot
  constructor
  · intro hlt
    have hmin : min amount
        (sumAmounts (db.points.filter (isEligibleLot userId now))) =
        sumAmounts (db.points.filter (isEligibleLot userId now)) :=
      min_eq_right hlt.le
    simp only [deductPoints, if_neg (not_le.mpr hamt)]
    rw [if_pos (by rw [htot, hmin]; linarith)]
  · intro hge
    have hmin : min amount
        (sumAmounts (db.points.filter (isEligibleLot userId now))) = amount :=
      min_eq_left hge
    have htot' : planTotal (greedyPlan (eligibleLots db.points userId now) amount)
        = amount := by rw [htot, hmin]
    refine ⟨applyPlan (greedyPlan (eligibleLots db.points userId now) amount)
        db.points, ?_, ?_, ?_, ?_⟩
    · simp only [deductPoints, if_neg (not_le.mpr hamt)]
      rw [if_neg (by rw [htot']; simp)]
    · rw [applyPlan_eq_map]
      rw [List.forall₂_map_right_iff]
      rw [List.forall₂_same]
      intro p hp
      have hplanFor : isEligibleLot userId now p = false →
          planFor (greedyPlan (eligibleLots db.points userId now) amount) p.id
            = 0 := by
        intro hnel
        refine greedyPlan_planFor_not_mem _ _ _ ?_
        intro x hx hxp
        have hxmem := (eligibleLots_mem_iff db.points userId now x).mp hx
        have : x = p := mem_eq_of_pairwise_key (fun r => r.id) hids hxmem.1 hp hxp
        rw [this] at hxmem
        rw [hxmem.2] at hnel
        cases hnel
      by_cases hel : isEligibleLot userId now p = true
      · have hpel : p ∈ eligibleLots db.points userId now :=
          (eligibleLots_mem_iff db.points userId now p).mpr ⟨hp, hel⟩
        have hb := greedyPlan_planFor_bounds _ amount hamt.le hepair hpos p hpel
        refine ⟨rfl, rfl, rfl, rfl, rfl, ?_, ?_, ?_⟩
        · show p.amount - planFor (greedyPlan (eligibleLots db.points userId now)
            amount) p.id ≤ p.amount
          linarith [hb.1]
        · intro _
          show (0:ℚ) ≤ p.amount - planFor (greedyPlan
            (eligibleLots db.points userId now) amount) p.id
          linarith [hb.2]
        · intro hf
          rw [hel] at hf
          cases hf
      · have hf : isEligibleLot userId now p = false := by
          revert hel
          cases isEligibleLot userId now p <;> simp
        have h0 := hplanFor hf
        refine ⟨rfl, rfl, rfl, rfl, rfl, ?_, fun ht => absurd ht hel, ?_⟩
        · show p.amount - planFor (greedyPlan (eligibleLots db.points userId now)
            amount) p.id ≤ p.amount
          rw [h0]
          simp
        · intro _
          show ({ p with amount := p.amount - planFor (greedyPlan
            (eligibleLots db.points userId now) amount) p.id } : UserPoint) = p
          rw [h0, sub_zero]
    · refine (rawPoints_applyPlan _ _ _ hids ?_).trans (by rw [htot'])
      intro d hd
      obtain ⟨x, hx, hdx⟩ := greedyPlan_mem _ _ d hd
      have hxmem := (eligibleLots_mem_iff db.points userId now x).mp hx
      exact ⟨x, hxmem.1, hdx.symm, eligibleLots_user db.points userId now x hx⟩
    · intro p hp q hq hpel hqel hlt htouch
      have hpmem : p ∈ eligibleLots db.points userId now :=
        (eligibleLots_mem_iff db.points userId now p).mpr ⟨hp, hpel⟩
      have hqmem : q ∈ eligibleLots db.points userId now :=
        (eligibleLots_mem_iff db.points userId now q).mpr ⟨hq, hqel⟩
      obtain ⟨l₁, l₂, l₃, hsplit⟩ :=
        sorted_split_of_lt (eligibleLots_sorted db.points userId now) hpmem hqmem hlt
      -- amounts of the updated rows
      have hidsmap : (applyPlan (greedyPlan (eligibleLots db.points userId now)
          amount) db.points).Pairwise (fun a b => a.id ≠ b.id) := by
        rw [applyPlan_eq_map, List.pairwise_map]
        exact hids.imp (fun h => h)
      have hamount : ∀ x ∈ db.points,
          lotAmount (applyPlan (greedyPlan (eligibleLots db.points userId now)
            amount) db.points) x.id =
          x.amount - planFor (greedyPlan (eligibleLots db.points userId now)
            amount) x.id := by
        intro x hx
        rw [applyPlan_eq_map]
        have := lotAmount_unique (db.points.map (fun p =>
          { p with amount := p.amount - planFor (greedyPlan
            (eligibleLots db.points userId now) amount) p.id }))
          (by rw [List.pairwise_map]; exact hids.imp (fun h => h))
          ({ x with amount := x.amount - planFor (greedyPlan
            (eligibleLots db.points userId now) amount) x.id })
          (List.mem_map_of_mem _ hx)
        exact this
      rw [hamount q hq] at htouch
      have hqtouch : planFor (greedyPlan (eligibleLots db.points userId now)
          amount) q.id ≠ 0 := by
        intro h0
        rw [h0, sub_zero] at htouch
        exact absurd htouch (lt_irrefl _)
      rw [hamount p hp]
      have hfull : planFor (greedyPlan (eligibleLots db.points userId now)
          amount) p.id = p.amount := by
        rw [hsplit] at hqtouch ⊢
        refine greedyPlan_prefix_full l₁ p l₂ q l₃ amount hamt.le ?_ ?_ hqtouch
        · rw [← hsplit]
          exact hpos
        · rw [← hsplit]
          exact hepair
      rw [hfull, sub_self]

namespace Demo

/-- A lot of user 2 expiring soonest (available at `now = 500`). -/
def lotA : UserPoint :=
  { id := 40, userId := 2, amount := 50000, isExpired := false,
    expiryDate := 500000, createdAt := 0 }

/-- The most recently created lot of user 2, already flagged expired. -/
def lotB : UserPoint :=
  { id := 41, userId := 2, amount := 10000, isExpired := true,
    expiryDate := 999999, createdAt := 50 }

/-- Database with the two point lots (no vouchers or coupons). -/
def dbPoints : DB :=
  { events := [ev], ticketTypes := [tt], vouchers := [], coupons := [],
    points := [lotA, lotB], transactions := [], attendees := [],
    payments := [], nextId := 100 }

end Demo

/-- Witness for `deductPoints_contract`: user 2 holds 50000 eligible points
(lot 40; lot 41 is flagged expired), so a debit of 70000 fails. -/
theorem deductPoints_contract_witness :
    deductPoints Demo.dbPoints 2 70000 500 = .error .deductPointsFailed := by
  have h := deductPoints_contract Demo.dbPoints 2 70000 500 (by norm_num)
    (by decide)
  exact h.1 (by norm_num [Demo.dbPoints, Demo.lotA, Demo.lotB, sumAmounts,
    isEligibleLot, List.filter])

/-! ## C9 — `restorePoints` credits the most recent lot, expired or not -/

theorem newerLot_ne_none (acc : Option UserPoint) (x : UserPoint) :
    newerLot acc x ≠ none := by
  cases acc with
  | none => simp [newerLot]
  | some q =>
    simp only [newerLot]
    split <;> simp

theorem foldl_newerLot_mem (l : List UserPoint) :
    ∀ (acc : Option UserPoint) (p : UserPoint),
    l.foldl newerLot acc = some p → p ∈ l ∨ acc = some p := by
  induction l with
  | nil => exact fun acc p h => .inr h
  | cons x rest ih =>
    intro acc p h
    simp only [List.foldl_cons] at h
    rcases ih (newerLot acc x) p h with hm | he
    · exact .inl (List.mem_cons_of_mem _ hm)
    · cases acc with
      | none =>
        simp only [newerLot, Option.some.injEq] at he
        exact .inl (by simp [he])
      | some q =>
        simp only [newerLot] at he
        split at he
        · simp only [Option.some.injEq] at he
          exact .inl (by simp [he])
        · exact .inr he

theorem foldl_newerLot_ge (l : List UserPoint) :
    ∀ (acc : Option UserPoint) (p : UserPoint),
    l.foldl newerLot acc = some p →
    (∀ q ∈ l, q.createdAt ≤ p.createdAt) ∧
    (∀ a, acc = some a → a.createdAt ≤ p.createdAt) := by
  induction l with
  | nil =>
    intro acc p h
    refine ⟨by simp, fun a ha => ?_⟩
    rw [ha] at h
    cases h
    exact le_refl _
  | cons x rest ih =>
    intro acc p h
    simp only [List.foldl_cons] at h
    obtain ⟨hrest, hacc⟩ := ih (newerLot acc x) p h
    have hx : x.createdAt ≤ p.createdAt := by
      cases acc with
      | none => exact hacc x rfl
      | some q =>
        by_cases hgt : x.createdAt > q.createdAt
        · exact hacc x (by simp [newerLot, hgt])
        · have hq := hacc q (by simp [newerLot, hgt])
          push_neg at hgt
          exact le_trans hgt hq
    refine ⟨?_, ?_⟩
    · intro y hy
      rcases List.mem_cons.mp hy with rfl | hy'
      · exact hx
      · exact hrest y hy'
    · intro a ha
      subst ha
      by_cases hgt : x.createdAt > a.createdAt
      · have := hacc x (by simp [newerLot, hgt])
        exact le_trans (le_of_lt hgt) this
      · exact hacc a (by simp [newerLot, hgt])

theorem foldl_newerLot_none (l : List UserPoint) :
    ∀ acc, l.foldl newerLot acc = none → acc = none ∧ l = [] := by
  induction l with
  | nil => exact fun acc h => ⟨h, rfl⟩
  | cons x rest ih =>
    intro acc h
    simp only [List.foldl_cons] at h
    exact absurd (ih (newerLot acc x) h).1 (newerLot_ne_none acc x)

/-- A found latest lot belongs to the user and has maximal `createdAt` among
the user's lots — with no condition on `isExpired` or `expiryDate`. -/
theorem latestLot_some (pts : List UserPoint) (u : ℕ) (p : UserPoint)
    (h : latestLot pts u = some p) :
    p ∈ pts ∧ p.userId = u ∧
    (∀ q ∈ pts, q.userId = u → q.createdAt ≤ p.createdAt) := by
  have hmem : p ∈ pts.filter (fun q => q.userId == u) := by
    rcases foldl_newerLot_mem _ _ _ h with hm | he
    · exact hm
    · cases he
  have hp := List.mem_filter.mp hmem
  refine ⟨hp.1, by simpa using hp.2, ?_⟩
  intro q hq hqu
  exact (foldl_newerLot_ge _ _ _ h).1 q (List.mem_filter.mpr ⟨hq, by simp [hqu]⟩)

/-- `latestLot` comes back empty only when the user has no lots at all. -/
theorem latestLot_none (pts : List UserPoint) (u : ℕ)
    (h : latestLot pts u = none) : ∀ q ∈ pts, q.userId ≠ u := by
  intro q hq hqu
  have := (foldl_newerLot_none _ _ h).2
  have : q ∈ pts.filter (fun p => p.userId == u) :=
    List.mem_filter.mpr ⟨hq, by simp [hqu]⟩
  simp_all

/-- C9: `restorePoints` credits the entire refunded amount to the user's
single most-recently-created lot, with no regard to that lot's `isExpired`
flag or `expiryDate`, and creates a fresh three-month lot only when the user
has no lots at all.  In particular (concrete run below): booking then
expiring restores the raw total of user 2's points (60000 before and after)
while the available balance drops from 50000 to 10000, because the refund
landed on the expired lot 41. -/
theorem restorePoints_credits_latest (db : DB) (u : ℕ) (amount : ℚ) (now : ℤ)
    (hamt : 0 < amount) :
    (∀ p, latestLot db.points u = some p →
      p ∈ db.points ∧ p.userId = u ∧
      (∀ q ∈ db.points, q.userId = u → q.createdAt ≤ p.createdAt) ∧
      (restorePoints db u amount now).points = db.points.map (fun q =>
        if q.id == p.id then { q with amount := q.amount + amount } else q)) ∧
    (latestLot db.points u = none →
      (∀ q ∈ db.points, q.userId ≠ u) ∧
      (restorePoints db u amount now).points = db.points ++
        [{ id := db.nextId, userId := u, amount := amount, isExpired := false,
           expiryDate := addMonths now 3, createdAt := now }]) ∧
    (committedDB? (createTransaction Demo.dbPoints 2
        { eventId := 10, ticketTypes := [{ ticketTypeId := 1, quantity := 2 }],
          pointsUsed := 40000 } 500)).map
        (fun db1 => expireTransaction db1 100 600) =
      some { Demo.dbPoints with
        points := [{ Demo.lotA with amount := 10000 },
                   { Demo.lotB with amount := 50000 }],
        transactions :=
          [{ id := 100, userId := 2, eventId := 10, status := .EXPIRED,
             totalAmount := 200000, pointsUsed := 40000, voucherId := none,
             voucherDiscount := 0, couponId := none, couponDiscount := 0,
             finalAmount := 160000, expiryTime := addHours 500 2,
             items := [{ ticketTypeId := 1, quantity := 2,
                         pricePerTicket := 100000, subtotal := 200000 }] }],
        nextId := 101 } ∧
    rawPoints Demo.dbPoints.points 2 = 60000 ∧
    availablePoints Demo.dbPoints.points 2 500 = 50000 ∧
    rawPoints [({ Demo.lotA with amount := 10000 } : UserPoint),
               { Demo.lotB with amount := 50000 }] 2 = 60000 ∧
    availablePoints [({ Demo.lotA with amount := 10000 } : UserPoint),
               { Demo.lotB with amount := 50000 }] 2 500 = 10000 := by
  refine ⟨?_, ?_, ?_, ?_, ?_, ?_, ?_⟩
  · intro p hp
    obtain ⟨hmem, huser, hmax⟩ := latestLot_some db.points u p hp
    refine ⟨hmem, huser, hmax, ?_⟩
    simp only [restorePoints, if_neg (not_le.mpr hamt), hp]
  · intro hnone
    refine ⟨latestLot_none db.points u hnone, ?_⟩
    simp only [restorePoints, if_neg (not_le.mpr hamt), hnone]
  · norm_num [committedDB?, createTransaction, Demo.dbPoints, Demo.ev, Demo.tt,
      Demo.lotA, Demo.lotB, validateTickets, buildItems, applyTicketUpdates,
      bumpSold, applyVoucher, applyCoupon, lookupVoucher, lookupCoupon,
      availablePoints, sumQuantities, deductPoints, eligibleLots, isEligibleLot,
      greedyPlan, planTotal, applyPlan, addHours, calculateDiscount,
      expireTransaction, rollbackTransaction, releaseTickets, restorePoints, latestLot,
      newerLot, itemsTotalQuantity, addMonths,
      bind, Except.bind, pure, Except.pure, List.find?, List.filter, List.any,
      List.map, List.insertionSort, List.orderedInsert]
  · norm_num [rawPoints, Demo.dbPoints, Demo.lotA, Demo.lotB, List.filter]
  · norm_num [availablePoints, Demo.dbPoints, Demo.lotA, Demo.lotB, List.filter]
  · norm_num [rawPoints, Demo.lotA, Demo.lotB, List.filter]
  · norm_num [availablePoints, Demo.lotA, Demo.lotB, List.filter]

/-- Witness for `restorePoints_credits_latest`: restoring 40000 to user 2
lands on lot 41 — the most recently created lot — although it is flagged
expired. -/
theorem restorePoints_credits_latest_witness :
    (restorePoints Demo.dbPoints 2 40000 600).points =
      [Demo.lotA, { Demo.lotB with amount := 50000 }] := by
  have h := restorePoints_credits_latest Demo.dbPoints 2 40000 600 (by norm_num)
  have hl : latestLot Demo.dbPoints.points 2 = some Demo.lotB := by
    norm_num [latestLot, Demo.dbPoints, Demo.lotA, Demo.lotB, newerLot,
      List.filter]
  rw [(h.1 Demo.lotB hl).2.2.2]
  norm_num [Demo.dbPoints, Demo.lotA, Demo.lotB]

/-! ## C3 — late `uploadPaymentProof`: the expiry does not persist -/

namespace Demo

/-- A booking of user 2 still `WAITING_FOR_PAYMENT` whose deadline (1000)
has long passed, holding 2 seats of the ticket type. -/
def expiredTx : Transaction :=
  { id := 50, userId := 2, eventId := 10, status := .WAITING_FOR_PAYMENT,
    totalAmount := 200000, pointsUsed := 0, voucherId := none,
    voucherDiscount := 0, couponId := none, couponDiscount := 0,
    finalAmount := 200000, expiryTime := 1000,
    items := [{ ticketTypeId := 1, quantity := 2, pricePerTicket := 100000,
                subtotal := 200000 }] }

/-- Database holding the overdue booking and its reserved inventory. -/
def dbExpired : DB :=
  { events := [{ ev with bookedSeats := 2 }],
    ticketTypes := [{ tt with soldQuantity := 2 }], vouchers := [],
    coupons := [], points := [], transactions := [expiredTx], attendees := [],
    payments := [], nextId := 60 }

end Demo

/-- C3 evaluated at the failing input: at `now = 5000`, past the deadline
1000, `uploadPaymentProof` raises the expired error — but because the
`expireTransaction` call and the throw happen inside the same
`prisma.$transaction`, the throw rolls the expiry back: nothing is
committed, so the booking is still `WAITING_FOR_PAYMENT` with its
inventory still held, contradicting the claim that the transition to
`EXPIRED` and the rollback persist.  (By contrast, the sweeper path
`expireTransaction` run directly does commit the expiry and release the
seats.) -/
theorem uploadPaymentProof_late_no_expiry_commit :
    uploadPaymentProof Demo.dbExpired 50 2 5000 = .error .transactionExpired ∧
    Demo.expiredTx.expiryTime < 5000 ∧
    Demo.expiredTx.status = .WAITING_FOR_PAYMENT ∧
    (expireTransaction Demo.dbExpired 50 5000).transactions =
      [{ Demo.expiredTx with status := .EXPIRED }] ∧
    (expireTransaction Demo.dbExpired 50 5000).ticketTypes = [Demo.tt] ∧
    (expireTransaction Demo.dbExpired 50 5000).events = [Demo.ev] := by
  refine ⟨?_, by norm_num [Demo.expiredTx], rfl, ?_, ?_, ?_⟩
  · norm_num [uploadPaymentProof, Demo.dbExpired, Demo.expiredTx, List.find?]
  · norm_num [expireTransaction, rollbackTransaction, releaseTickets, Demo.dbExpired,
      Demo.expiredTx, Demo.tt, Demo.ev, itemsTotalQuantity, List.find?,
      List.map]
  · norm_num [expireTransaction, rollbackTransaction, releaseTickets, Demo.dbExpired,
      Demo.expiredTx, Demo.tt, Demo.ev, itemsTotalQuantity, List.find?,
      List.map]
  · norm_num [expireTransaction, rollbackTransaction, releaseTickets, Demo.dbExpired,
      Demo.expiredTx, Demo.tt, Demo.ev, itemsTotalQuantity, List.find?,
      List.map]

/-! ## C7 — `confirmTransaction` succeeds at most once -/

theorem restorePoints_transactions (db : DB) (u : ℕ) (amount : ℚ) (now : ℤ) :
    (restorePoints db u amount now).transactions = db.transactions := by
  unfold restorePoints
  split
  · rfl
  · split <;> rfl

/-- `rollbackTransaction` never touches the `transactions` table itself. -/
theorem rollbackTransaction_transactions (db : DB) (i : ℕ) (now : ℤ) :
    (rollbackTransaction db i now).transactions = db.transactions := by
  unfold rollbackTransaction
  split
  · rfl
  · split <;> split <;> split <;>
      first
        | rfl
        | rw [restorePoints_transactions]

/-- C7: a successful `confirmTransaction` moves the booking to `DONE` or
`REJECTED`, and any second confirmation attempt on the same id — by any
organizer, with either decision, at any time — fails with the
not-found/invalid-status error (and, the call being atomic, commits
nothing), because the lookup requires `WAITING_FOR_CONFIRMATION`, which the
terminal transition removed.  In particular the rollback is gated behind
that status check and can run at most once per booking. -/
theorem confirmTransaction_second_call_fails (db : DB) (txId orgId : ℕ)
    (acc : Bool) (now : ℤ)
    (hids : db.transactions.Pairwise (fun a b => a.id ≠ b.id))
    (db1 : DB) (h : confirmTransaction db txId orgId acc now = .ok db1) :
    (∃ t ∈ db1.transactions, t.id = txId ∧
      t.status = (if acc then TransactionStatus.DONE else .REJECTED)) ∧
    (∀ (orgId' : ℕ) (acc' : Bool) (now' : ℤ),
      confirmTransaction db1 txId orgId' acc' now' =
        .error .transactionNotFound) := by
  unfold confirmTransaction at h
  generalize hfind : db.transactions.find? (fun t =>
      t.id == txId &&
      db.events.any (fun e => e.id == t.eventId && e.organizerId == orgId) &&
      t.status == .WAITING_FOR_CONFIRMATION) = found at h
  cases found with
  | none => cases h
  | some t0 =>
    simp only [Except.ok.injEq] at h
    have hpred := List.find?_some hfind
    have hmem := List.mem_of_find?_eq_some hfind
    simp only [Bool.and_eq_true, beq_iff_eq] at hpred
    obtain ⟨⟨ht0id, _⟩, ht0status⟩ := hpred
    -- the transactions table after the call
    have htx1 : db1.transactions = db.transactions.map (fun t =>
        if t.id == txId then
          { t with status := if acc then TransactionStatus.DONE else .REJECTED }
        else t) := by
      subst h
      cases acc <;> simp [rollbackTransaction_transactions]
    constructor
    · refine ⟨{ t0 with status := if acc then TransactionStatus.DONE
          else .REJECTED }, ?_, ht0id, rfl⟩
      rw [htx1]
      have := List.mem_map_of_mem (fun t =>
        if t.id == txId then
          { t with status := if acc then TransactionStatus.DONE else .REJECTED }
        else t) hmem
      simpa [ht0id] using this
    · intro orgId' acc' now'
      unfold confirmTransaction
      have hnone : db1.transactions.find? (fun t =>
          t.id == txId &&
          db1.events.any (fun e => e.id == t.eventId && e.organizerId == orgId') &&
          t.status == .WAITING_FOR_CONFIRMATION) = none := by
        rw [List.find?_eq_none]
        intro t1 ht1
        rw [htx1] at ht1
        obtain ⟨t, htmem, rfl⟩ := List.mem_map.mp ht1
        by_cases hid : t.id = txId
        · intro hcontra
          simp only [hid, if_pos (by simp : (txId == txId) = true),
            Bool.and_eq_true, beq_iff_eq] at hcontra
          have ht_eq : t = t0 :=
            mem_eq_of_pairwise_key (fun r => r.id) hids htmem hmem
              (hid.trans ht0id.symm)
          have := hcontra.2
          cases acc <;> simp_all
        · have hif : (if t.id == txId then
              { t with status := if acc then TransactionStatus.DONE
                else .REJECTED }
              else t) = t := by
            rw [if_neg (by simp [hid])]
          rw [hif]
          intro hcontra
          simp only [Bool.and_eq_true, beq_iff_eq] at hcontra
          exact hid hcontra.1.1
      rw [hnone]

namespace Demo

/-- A booking of user 2 awaiting the organizer's confirmation. -/
def wfcTx : Transaction :=
  { expiredTx with
    id := 55
    status := .WAITING_FOR_CONFIRMATION
    expiryTime := 999999 }

/-- Database holding the awaiting-confirmation booking. -/
def dbConfirm : DB :=
  { dbExpired with transactions := [wfcTx], payments := [55] }

/-- The state after the organizer rejects booking 55: inventory released,
status `REJECTED`. -/
def dbRejected : DB :=
  { dbConfirm with
    events := [ev]
    ticketTypes := [tt]
    transactions := [{ wfcTx with status := .REJECTED }] }

end Demo

/-- Witness for `confirmTransaction_second_call_fails`: after the organizer
rejects booking 55, a second confirmation attempt fails. -/
theorem confirmTransaction_second_call_fails_witness :
    confirmTransaction Demo.dbRejected 55 7 true 800 =
      .error .transactionNotFound := by
  have h1 : confirmTransaction Demo.dbConfirm 55 7 false 700 =
      .ok Demo.dbRejected := by
    norm_num [confirmTransaction, rollbackTransaction, releaseTickets, itemsTotalQuantity,
      Demo.dbRejected, Demo.dbConfirm, Demo.dbExpired, Demo.wfcTx,
      Demo.expiredTx, Demo.ev, Demo.tt, List.find?, List.any, List.map]
  have h := confirmTransaction_second_call_fails Demo.dbConfirm 55 7 false 700
    (by decide) Demo.dbRejected h1
  exact h.2 7 true 800

/-! ## C8 — the event-level seat budget check -/

/-- C8: with STEP 0–2 passing (nonempty request, bookable event found, all
requested ticket types present, per-line quantity checks passing), a request
whose total quantity exceeds the event-level remaining budget
(`availableSeats - bookedSeats`) fails with `INSUFFICIENT_SEATS` — and, the
whole method being one atomic transaction, no state is mutated.  The
event-level cap is checked in STEP 3, after the per-ticket-type caps of
STEP 2. -/
theorem createTransaction_insufficient_seats (db : DB) (userId : ℕ)
    (req : TransactionCreateRequest) (now : ℤ) (event : Event)
    (totalAmount : ℚ) (ups : List TicketUpdate)
    (hne : req.ticketTypes.isEmpty = false)
    (hev : db.events.find? (fun e => e.id == req.eventId && e.isPublished &&
      decide (now < e.startDate)) = some event)
    (hfound : ((req.ticketTypes.map (·.ticketTypeId)).any (fun i =>
      !((db.ticketTypes.filter (fun t => t.eventId == req.eventId &&
        req.ticketTypes.any (fun j => j.ticketTypeId == t.id))).map
          (·.id)).contains i)) = false)
    (hval : validateTickets (db.ticketTypes.filter (fun t =>
      t.eventId == req.eventId && req.ticketTypes.any (fun j =>
        j.ticketTypeId == t.id))) req.ticketTypes = .ok (totalAmount, ups))
    (hseats : sumQuantities req.ticketTypes >
      event.availableSeats - event.bookedSeats) :
    createTransaction db userId req now = .error .insufficientSeats := by
  simp only [createTransaction, hne, hev, hfound, hval, hseats,
    Bool.false_eq_true, if_false, if_true, bind, Except.bind, pure,
    Except.pure, ite_true, ite_false]

namespace Demo

/-- The event with only 3 seats left in the event-level budget. -/
def evSmall : Event := { ev with availableSeats := 3 }

/-- Database where the per-type capacity (5) exceeds the event budget (3). -/
def dbSeats : DB :=
  { events := [evSmall], ticketTypes := [tt], vouchers := [], coupons := [],
    points := [], transactions := [], attendees := [], payments := [],
    nextId := 100 }

end Demo

/-- Witness for `createTransaction_insufficient_seats`: 4 tickets pass the
per-type check (capacity 5) but exceed the event budget of 3. -/
theorem createTransaction_insufficient_seats_witness :
    createTransaction Demo.dbSeats 2
      { eventId := 10, ticketTypes := [{ ticketTypeId := 1, quantity := 4 }] }
      500 = .error .insufficientSeats := by
  refine createTransaction_insufficient_seats Demo.dbSeats 2 _ 500 Demo.evSmall
    400000 [{ id := 1, quantity := 4, currentSold := 0, maxQuantity := 5,
              price := 100000 }] rfl ?_ rfl ?_ ?_
  · norm_num [Demo.dbSeats, Demo.evSmall, Demo.ev, List.find?]
  · norm_num [validateTickets, Demo.dbSeats, Demo.evSmall, Demo.ev, Demo.tt,
      List.filter, List.find?, List.any, bind, Except.bind, pure, Except.pure]
  · norm_num [sumQuantities, Demo.evSmall, Demo.ev]

/-! ## Inversion of a successful `createTransaction` -/

/-- The database state after the pure writes of STEPS 8–12 of
`createTransaction` (everything except the points deduction). -/
def dbAfterWrites (db : DB) (req : TransactionCreateRequest) (t : Transaction)
    (newTts : List TicketType) (appliedVoucher : Option Voucher)
    (appliedCoupon : Option UserCoupon) : DB :=
  { db with
    transactions := t :: db.transactions
    nextId := db.nextId + 1
    ticketTypes := newTts
    events := db.events.map (fun e =>
      if e.id == req.eventId then
        { e with bookedSeats := e.bookedSeats + sumQuantities req.ticketTypes }
      else e)
    vouchers := match appliedVoucher with
      | some v => db.vouchers.map (fun w =>
          if w.id == v.id then { w with usedCount := w.usedCount + 1 } else w)
      | none => db.vouchers
    coupons := match appliedCoupon with
      | some c => db.coupons.map (fun w =>
          if w.id == c.id then { w with isUsed := true } else w)
      | none => db.coupons }

/-- Inversion of a successful `createTransaction`: every validation phase
passed, the returned transaction's fields are the computed ones, and the
committed database is the written one. -/
theorem createTransaction_ok_inv (db : DB) (userId : ℕ)
    (req : TransactionCreateRequest) (now : ℤ) (db' : DB) (t : Transaction)
    (h : createTransaction db userId req now = .ok (db', t)) :
    ∃ (event : Event) (ups : List TicketUpdate)
      (appliedVoucher : Option Voucher) (appliedCoupon : Option UserCoupon)
      (newTts : List TicketType),
      req.ticketTypes.isEmpty = false ∧
      db.events.find? (fun e => e.id == req.eventId && e.isPublished &&
        decide (now < e.startDate)) = some event ∧
      validateTickets (db.ticketTypes.filter (fun tt =>
        tt.eventId == req.eventId && req.ticketTypes.any (fun i =>
          i.ticketTypeId == tt.id))) req.ticketTypes =
        .ok (t.totalAmount, ups) ∧
      buildItems (db.ticketTypes.filter (fun tt =>
        tt.eventId == req.eventId && req.ticketTypes.any (fun i =>
          i.ticketTypeId == tt.id))) req.ticketTypes = .ok t.items ∧
      sumQuantities req.ticketTypes ≤ event.availableSeats - event.bookedSeats ∧
      applyVoucher db.vouchers req.eventId req.voucherCode t.totalAmount now =
        .ok (t.voucherDiscount, appliedVoucher) ∧
      applyCoupon db.coupons userId req.couponCode t.totalAmount now =
        .ok (t.couponDiscount, appliedCoupon) ∧
      t.voucherId = appliedVoucher.map (·.id) ∧
      t.couponId = appliedCoupon.map (·.id) ∧
      t.id = db.nextId ∧ t.userId = userId ∧ t.eventId = req.eventId ∧
      t.status = .WAITING_FOR_PAYMENT ∧
      t.pointsUsed = (if req.pointsUsed > 0 then req.pointsUsed else 0) ∧
      (req.pointsUsed > 0 → req.pointsUsed ≤ t.totalAmount ∧
        req.pointsUsed ≤ availablePoints db.points userId now) ∧
      t.expiryTime = addHours now 2 ∧
      applyTicketUpdates ups db.ticketTypes = .ok newTts ∧
      (req.pointsUsed > 0 →
        deductPoints (dbAfterWrites db req t newTts appliedVoucher appliedCoupon)
          userId req.pointsUsed now = .ok db') ∧
      (¬ req.pointsUsed > 0 →
        db' = dbAfterWrites db req t newTts appliedVoucher appliedCoupon) := by
  unfold createTransaction at h
  dsimp only [] at h
  split at h
  · cases h
  next hne =>
  split at h
  next => cases h
  next event hev =>
  split at h
  · cases h
  next hfound =>
  split at h
  next e he => cases h
  next totalAmount ups hval =>
  split at h
  · cases h
  next hseats =>
  split at h
  next e he => cases h
  next pointsDiscount hpoints =>
  split at h
  next e he => cases h
  next voucherDiscount appliedVoucher happlyv =>
  split at h
  next e he => cases h
  next couponDiscount appliedCoupon happlyc =>
  split at h
  next e he => cases h
  next items hitems =>
  split at h
  next e he => cases h
  next newTts happly =>
  -- points-phase analysis
  have hpd : pointsDiscount = (if req.pointsUsed > 0 then req.pointsUsed else 0) ∧
      (req.pointsUsed > 0 → req.pointsUsed ≤ totalAmount ∧
        req.pointsUsed ≤ availablePoints db.points userId now) := by
    split at hpoints
    next hpos =>
      split at hpoints
      next => cases hpoints
      next hle1 =>
        split at hpoints
        next => cases hpoints
        next hle2 =>
          cases hpoints
          push_neg at hle1 hle2
          exact ⟨by rw [if_pos hpos], fun _ => ⟨hle1, hle2⟩⟩
    next hneg =>
      cases hpoints
      exact ⟨by rw [if_neg hneg], fun hpos => absurd hpos hneg⟩
  have hne' : req.ticketTypes.isEmpty = false := by
    revert hne
    cases req.ticketTypes.isEmpty <;> simp
  split at h
  next hppos =>
    split at h
    next e hded => cases h
    next db6 hded =>
      cases h
      refine ⟨event, ups, appliedVoucher, appliedCoupon, newTts,
        hne', hev, hval, hitems, not_lt.mp hseats, happlyv, happlyc,
        rfl, rfl, rfl, rfl, rfl, rfl, ?_, hpd.2, rfl, happly, ?_, ?_⟩
      · show pointsDiscount = _
        exact hpd.1
      · intro _
        have hpdq : pointsDiscount = req.pointsUsed := by
          rw [hpd.1, if_pos hppos]
        rw [← hpdq]
        unfold dbAfterWrites
        cases appliedVoucher <;> cases appliedCoupon <;> exact hded
      · intro hcon
        exact absurd hppos hcon
  next hpneg =>
    cases h
    refine ⟨event, ups, appliedVoucher, appliedCoupon, newTts,
      hne', hev, hval, hitems, not_lt.mp hseats, happlyv, happlyc,
      rfl, rfl, rfl, rfl, rfl, rfl, ?_, hpd.2, rfl, happly, ?_, ?_⟩
    · show pointsDiscount = _
      exact hpd.1
    · intro hcon
      exact absurd hcon hpneg
    · intro _
      unfold dbAfterWrites
      cases appliedVoucher <;> cases appliedCoupon <;> rfl

/-! ## C10 — voucher discounts are never capped -/

/-- Characterization of STEP 5's outcome: no applied voucher means zero
voucher discount; an applied voucher is one of the voucher rows and its
discount is `calculateDiscount` **with no cap argument**. -/
theorem applyVoucher_ok (vouchers : List Voucher) (eventId : ℕ)
    (code? : Option String) (totalAmount : ℚ) (now : ℤ) (d : ℚ)
    (ov : Option Voucher)
    (h : applyVoucher vouchers eventId code? totalAmount now = .ok (d, ov)) :
    (ov = none → d = 0) ∧
    (∀ v, ov = some v → v ∈ vouchers ∧
      d = calculateDiscount totalAmount v.discountType v.discountValue none) := by
  unfold applyVoucher at h
  split at h
  · cases h
    exact ⟨fun _ => rfl, fun v hv => by cases hv⟩
  next code =>
  split at h
  · cases h
    exact ⟨fun _ => rfl, fun v hv => by cases hv⟩
  · split at h
    next hlook =>
      cases h
      exact ⟨fun _ => rfl, fun v hv => by cases hv⟩
    next voucher hlook =>
      split at h
      · cases h
      · split at h
        · cases h
        · cases h
          constructor
          · intro hc
            cases hc
          · intro v hv
            cases hv
            exact ⟨List.mem_of_find?_eq_some hlook, rfl⟩

/-- C10: for every successful booking, the voucher discount was computed by
the discount calculator with no cap (the `event_vouchers` schema has no
maximum-discount column), so a percentage voucher's discount is
`totalAmount * value / 100` clamped only by `totalAmount`; and with no
applied voucher the voucher discount is zero. -/
theorem voucher_discount_uncapped (db : DB) (userId : ℕ)
    (req : TransactionCreateRequest) (now : ℤ) (db' : DB) (t : Transaction)
    (h : createTransaction db userId req now = .ok (db', t)) :
    (t.voucherId = none → t.voucherDiscount = 0) ∧
    (∀ vid, t.voucherId = some vid → ∃ v, v ∈ db.vouchers ∧ v.id = vid ∧
      t.voucherDiscount =
        calculateDiscount t.totalAmount v.discountType v.discountValue none ∧
      (v.discountType = .PERCENTAGE →
        t.voucherDiscount =
          min (t.totalAmount * v.discountValue / 100) t.totalAmount)) := by
  obtain ⟨event, ups, appliedVoucher, appliedCoupon, newTts,
    _, _, _, _, _, happlyv, _, hvid, _⟩ :=
    createTransaction_ok_inv db userId req now db' t h
  obtain ⟨hnone, hsome⟩ := applyVoucher_ok _ _ _ _ _ _ _ happlyv
  constructor
  · intro hv
    cases appliedVoucher with
    | none => exact hnone rfl
    | some v => rw [hvid] at hv; cases hv
  · intro vid hv
    cases appliedVoucher with
    | none => rw [hvid] at hv; cases hv
    | some v =>
      obtain ⟨hmem, hd⟩ := hsome v rfl
      refine ⟨v, hmem, ?_, hd, ?_⟩
      · rw [hvid] at hv
        simpa using hv
      · intro hperc
        rw [hd, hperc]
        rfl

namespace Demo

/-- The booking created when user 2 quotes voucher `"SAVE"` on a 200000
purchase: 10% = 20000 voucher discount, uncapped. -/
def voucherTx : Transaction :=
  { id := 100, userId := 2, eventId := 10, status := .WAITING_FOR_PAYMENT,
    totalAmount := 200000, pointsUsed := 0, voucherId := some 20,
    voucherDiscount := 20000, couponId := none, couponDiscount := 0,
    finalAmount := 180000, expiryTime := addHours 500 2,
    items := [{ ticketTypeId := 1, quantity := 2, pricePerTicket := 100000,
                subtotal := 200000 }] }

/-- The committed state of that booking. -/
def dbVoucherBooked : DB :=
  { dbUsedCoupon with
    events := [{ ev with bookedSeats := 2 }]
    ticketTypes := [{ tt with soldQuantity := 2 }]
    vouchers := [{ voucher with usedCount := 1 }]
    transactions := [voucherTx]
    nextId := 101 }

end Demo

/-- Witness for `voucher_discount_uncapped`: the applied 10% voucher on a
200000 booking yields exactly `min (200000 * 10 / 100) 200000 = 20000`. -/
theorem voucher_discount_uncapped_witness :
    ∃ v, v ∈ Demo.dbUsedCoupon.vouchers ∧ v.id = 20 ∧
      Demo.voucherTx.voucherDiscount =
        calculateDiscount Demo.voucherTx.totalAmount v.discountType
          v.discountValue none ∧
      (v.discountType = .PERCENTAGE →
        Demo.voucherTx.voucherDiscount =
          min (Demo.voucherTx.totalAmount * v.discountValue / 100)
            Demo.voucherTx.totalAmount) := by
  have hrun : createTransaction Demo.dbUsedCoupon 2
      { eventId := 10, ticketTypes := [{ ticketTypeId := 1, quantity := 2 }],
        voucherCode := some "SAVE" } 500 =
      .ok (Demo.dbVoucherBooked, Demo.voucherTx) := by
    have hs : strim "SAVE" = "SAVE" := by decide
    have hnesave : ("SAVE" = "") = False := by simp
    norm_num [createTransaction, Demo.dbUsedCoupon, Demo.dbVoucherBooked,
      Demo.voucherTx, Demo.ev, Demo.tt, Demo.voucher, Demo.usedCoupon,
      validateTickets, buildItems, applyTicketUpdates, bumpSold, applyVoucher,
      applyCoupon, lookupVoucher, lookupCoupon, hs, hnesave, availablePoints,
      sumQuantities, deductPoints, addHours, calculateDiscount,
      bind, Except.bind, pure, Except.pure,
      List.find?, List.filter, List.any, List.map]
  have h := voucher_discount_uncapped Demo.dbUsedCoupon 2 _ 500
    Demo.dbVoucherBooked Demo.voucherTx hrun
  exact (h.2) 20 rfl

/-! ## Ticket-fold normal forms and request alignment -/

/-- Total quantity the ticket updates add to ticket type `i`. -/
def upsQty (ups : List TicketUpdate) (i : ℕ) : ℤ :=
  ((ups.filter (fun u => u.id == i)).map (·.quantity)).sum

/-- Total quantity a transaction's items hold of ticket type `i`. -/
def itemsQty (items : List TransactionItem) (i : ℕ) : ℤ :=
  ((items.filter (fun it => it.ticketTypeId == i)).map (·.quantity)).sum

/-- Total quantity the request lines ask of ticket type `i`. -/
def reqQty (reqL : List ReqItem) (i : ℕ) : ℤ :=
  ((reqL.filter (fun it => it.ticketTypeId == i)).map (·.quantity)).sum

theorem upsQty_cons (u : TicketUpdate) (ups : List TicketUpdate) (i : ℕ) :
    upsQty (u :: ups) i = (if u.id = i then u.quantity else 0) + upsQty ups i := by
  by_cases h : u.id = i <;> simp [upsQty, h]

theorem itemsQty_cons (it : TransactionItem) (items : List TransactionItem)
    (i : ℕ) :
    itemsQty (it :: items) i =
      (if it.ticketTypeId = i then it.quantity else 0) + itemsQty items i := by
  by_cases h : it.ticketTypeId = i <;> simp [itemsQty, h]

theorem reqQty_cons (l : ReqItem) (reqL : List ReqItem) (i : ℕ) :
    reqQty (l :: reqL) i =
      (if l.ticketTypeId = i then l.quantity else 0) + reqQty reqL i := by
  by_cases h : l.ticketTypeId = i <;> simp [reqQty, h]

theorem foldl_add_shift {α : Type} (f : α → ℤ) (l : List α) :
    ∀ a : ℤ, l.foldl (fun s x => s + f x) a = a + (l.map f).sum := by
  induction l with
  | nil => simp
  | cons x rest ih =>
    intro a
    simp only [List.foldl_cons, List.map_cons, List.sum_cons, ih (a + f x)]
    ring

theorem sumQuantities_eq (reqL : List ReqItem) :
    sumQuantities reqL = (reqL.map (·.quantity)).sum := by
  simpa using foldl_add_shift (fun i => i.quantity) reqL 0

theorem itemsTotalQuantity_eq (items : List TransactionItem) :
    itemsTotalQuantity items = (items.map (·.quantity)).sum := by
  simpa using foldl_add_shift (fun i => i.quantity) items 0

/-- `releaseTickets` in closed form: each row loses the items' total for its
id. -/
theorem releaseTickets_eq (items : List TransactionItem)
    (tts : List TicketType) :
    releaseTickets items tts =
      tts.map (fun t => { t with
        soldQuantity := t.soldQuantity - itemsQty items t.id }) := by
  induction items generalizing tts with
  | nil =>
    simp only [releaseTickets, List.foldl_nil]
    have : ∀ t : TicketType, ({ t with
        soldQuantity := t.soldQuantity - itemsQty [] t.id }) = t := by
      intro t
      show ({ t with soldQuantity := t.soldQuantity - 0 }) = t
      rw [sub_zero]
    exact ((List.map_congr_left (fun t _ => this t)).trans
      (List.map_id' tts)).symm
  | cons it items ih =>
    simp only [releaseTickets, List.foldl_cons] at *
    rw [ih, List.map_map]
    refine List.map_congr_left ?_
    intro t _
    simp only [Function.comp_apply]
    by_cases h : t.id = it.ticketTypeId
    · simp only [beq_iff_eq, if_pos h, itemsQty_cons, if_pos h.symm]
      congr 1
      ring
    · simp only [beq_iff_eq, if_neg h, itemsQty_cons,
        if_neg (fun hh : it.ticketTypeId = t.id => h hh.symm), zero_add]

/-- A successful `applyTicketUpdates` in closed form: each row gains the
updates' total for its id. -/
theorem applyTicketUpdates_ok_eq (ups : List TicketUpdate)
    (tts newTts : List TicketType)
    (h : applyTicketUpdates ups tts = .ok newTts) :
    newTts = tts.map (fun t => { t with
      soldQuantity := t.soldQuantity + upsQty ups t.id }) := by
  induction ups generalizing tts with
  | nil =>
    cases h
    have : ∀ t : TicketType, ({ t with
        soldQuantity := t.soldQuantity + upsQty [] t.id }) = t := by
      intro t
      show ({ t with soldQuantity := t.soldQuantity + 0 }) = t
      rw [add_zero]
    exact ((List.map_congr_left (fun t _ => this t)).trans
      (List.map_id' _)).symm
  | cons u ups ih =>
    simp only [applyTicketUpdates] at h
    split at h
    · cases h
    · split at h
      · cases h
      · rw [ih _ h, bumpSold, List.map_map]
        refine List.map_congr_left ?_
        intro t _
        simp only [Function.comp_apply]
        by_cases hid : t.id = u.id
        · simp only [beq_iff_eq, if_pos hid, upsQty_cons, if_pos hid.symm]
          congr 1
          ring
        · simp only [beq_iff_eq, if_neg hid, upsQty_cons,
            if_neg (fun hh : u.id = t.id => hid hh.symm), zero_add]

/-- On success every row either was left alone or ends within its capacity
(`maxQuantity` re-check after each increment). -/
theorem applyTicketUpdates_ok_bound (ups : List TicketUpdate)
    (tts newTts : List TicketType)
    (h : applyTicketUpdates ups tts = .ok newTts)
    (hids : tts.Pairwise (fun a b => a.id ≠ b.id))
    (hq : ∀ u ∈ ups, 0 ≤ u.quantity)
    (hmax : ∀ u ∈ ups, ∀ t ∈ tts, t.id = u.id → u.maxQuantity = t.quantity) :
    ∀ t ∈ tts, upsQty ups t.id = 0 ∨
      t.soldQuantity + upsQty ups t.id ≤ t.quantity := by
  induction ups generalizing tts with
  | nil =>
    intro t _
    left
    rfl
  | cons u ups ih =>
    intro t ht
    simp only [applyTicketUpdates] at h
    split at h
    · cases h
    next updated hfind =>
      split at h
      · cases h
      next hcheck =>
      push_neg at hcheck
      have hidsb : (bumpSold tts u).Pairwise (fun a b => a.id ≠ b.id) := by
        rw [bumpSold, List.pairwise_map]
        refine hids.imp_of_mem ?_
        intro a b _ _ hab
        have ha : (if a.id == u.id then
            { a with soldQuantity := a.soldQuantity + u.quantity }
            else a).id = a.id := by split <;> rfl
        have hb : (if b.id == u.id then
            { b with soldQuantity := b.soldQuantity + u.quantity }
            else b).id = b.id := by split <;> rfl
        rw [ha, hb]
        exact hab
      have hmaxb : ∀ w ∈ ups, ∀ s ∈ bumpSold tts u, s.id = w.id →
          w.maxQuantity = s.quantity := by
        intro w hw s hs hsid
        rw [bumpSold] at hs
        obtain ⟨t0, ht0, rfl⟩ := List.mem_map.mp hs
        have hsid' : (if t0.id == u.id then
            { t0 with soldQuantity := t0.soldQuantity + u.quantity }
            else t0).id = t0.id := by split <;> rfl
        have hqid : (if t0.id == u.id then
            { t0 with soldQuantity := t0.soldQuantity + u.quantity }
            else t0).quantity = t0.quantity := by split <;> rfl
        rw [hqid]
        exact hmax w (List.mem_cons_of_mem u hw) t0 ht0 (hsid'.symm.trans hsid)
      have hrec := ih _ h hidsb
        (fun w hw => hq w (List.mem_cons_of_mem u hw)) hmaxb
      -- the bumped version of `t`
      have htb : (if t.id == u.id then
          { t with soldQuantity := t.soldQuantity + u.quantity } else t) ∈
          bumpSold tts u := by
        rw [bumpSold]
        exact List.mem_map_of_mem _ ht
      by_cases hid : t.id = u.id
      · -- row updated by this step
        have htb' : ({ t with soldQuantity := t.soldQuantity + u.quantity }) ∈
            bumpSold tts u := by
          rw [if_pos (by simp [hid])] at htb
          exact htb
        have hrect := hrec _ htb'
        have hupdated : updated =
            { t with soldQuantity := t.soldQuantity + u.quantity } := by
          have hu1 := List.find?_some hfind
          have hu2 := List.mem_of_find?_eq_some hfind
          refine mem_eq_of_pairwise_key (fun r => r.id) hidsb hu2 htb' ?_
          simp only [beq_iff_eq] at hu1
          show updated.id = t.id
          rw [hu1, hid]
        rw [upsQty_cons, if_pos hid.symm]
        rcases hrect with h0 | hle
        · right
          show t.soldQuantity + (u.quantity + upsQty ups t.id) ≤ t.quantity
          have : upsQty ups t.id = 0 := h0
          rw [this, add_zero]
          have hcheck' : t.soldQuantity + u.quantity ≤ u.maxQuantity := by
            rw [hupdated] at hcheck
            exact hcheck
          have := hmax u (by simp) t ht hid
          rw [this] at hcheck'
          exact hcheck'
        · right
          show t.soldQuantity + (u.quantity + upsQty ups t.id) ≤ t.quantity
          have : t.soldQuantity + u.quantity + upsQty ups t.id ≤ t.quantity :=
            hle
          linarith
      · -- row untouched by this step
        have htb' : t ∈ bumpSold tts u := by
          rw [if_neg (by simp [hid])] at htb
          exact htb
        have hrect := hrec t htb'
        rw [upsQty_cons, if_neg (fun hh : u.id = t.id => hid hh.symm), zero_add]
        exact hrect

/-- Alignment of STEP 2's `ticketUpdates` and STEP 8's `items` with the
request: per-ticket-type and total quantities agree, quantities are
positive, and every update snapshot carries the matching row's capacity. -/
theorem validate_buildItems_facts (evT : List TicketType) (reqL : List ReqItem)
    (amt : ℚ) (ups : List TicketUpdate) (items : List TransactionItem)
    (hval : validateTickets evT reqL = .ok (amt, ups))
    (hbld : buildItems evT reqL = .ok items) :
    (∀ i, upsQty ups i = reqQty reqL i) ∧
    (∀ i, itemsQty items i = reqQty reqL i) ∧
    (∀ u ∈ ups, 0 < u.quantity ∧ ∃ tt ∈ evT, tt.id = u.id ∧
      u.maxQuantity = tt.quantity) ∧
    (∀ it ∈ items, 0 < it.quantity) := by
  induction reqL generalizing amt ups items with
  | nil =>
    cases hval
    cases hbld
    exact ⟨fun i => rfl, fun i => rfl, by simp, by simp⟩
  | cons line rest ih =>
    simp only [validateTickets, buildItems] at hval hbld
    split at hval
    next hfindnone =>
      rw [hfindnone] at hbld
      cases hbld
    next tt hfind =>
      rw [hfind] at hbld
      split at hval
      next => cases hval
      next hq =>
        split at hval
        next => cases hval
        next hav =>
          -- decompose the binds
          simp only [bind, Except.bind] at hval hbld
          split at hval
          next => cases hval
          next va hvalrest =>
            obtain ⟨amt', ups'⟩ := va
            split at hbld
            next => cases hbld
            next items' hbldrest =>
              cases hval
              cases hbld
              obtain ⟨h1, h2, h3, h4⟩ := ih amt' ups' items' hvalrest hbldrest
              have httid : tt.id = line.ticketTypeId := by
                have := List.find?_some hfind
                simpa using this
              push_neg at hq
              refine ⟨?_, ?_, ?_, ?_⟩
              · intro i
                rw [upsQty_cons, reqQty_cons, h1 i]
                simp only [httid]
              · intro i
                rw [itemsQty_cons, reqQty_cons, h2 i]
              · intro u hu
                rcases List.mem_cons.mp hu with rfl | hu'
                · exact ⟨hq, tt, List.mem_of_find?_eq_some hfind, rfl, rfl⟩
                · exact h3 u hu'
              · intro it hit
                rcases List.mem_cons.mp hit with rfl | hit'
                · exact hq
                · exact h4 it hit'

/-! ## Points machinery for the round-trip -/

/-- Inversion of a successful points deduction. -/
theorem deductPoints_ok_inv (db : DB) (u : ℕ) (amt : ℚ) (now : ℤ) (db' : DB)
    (h : deductPoints db u amt now = .ok db') :
    (amt ≤ 0 ∧ db' = db) ∨
    (0 < amt ∧
      db' = { db with points := applyPlan (greedyPlan (eligibleLots db.points u now) amt) db.points } ∧
      planTotal (greedyPlan (eligibleLots db.points u now) amt) = amt) := by
  unfold deductPoints at h
  split at h
  next hle =>
    cases h
    exact .inl ⟨hle, rfl⟩
  next hgt =>
    push_neg at hgt
    dsimp only [] at h
    split at h
    · cases h
    next hcov =>
      cases h
      push_neg at hcov
      refine .inr ⟨hgt, rfl, le_antisymm ?_ (by linarith)⟩
      rw [greedyPlan_total _ _ hgt.le (eligibleLots_pos db.points u now)]
      exact min_le_left _ _

/-- A successful deduction only rewrites the points table, keeps ids
pairwise distinct, and lowers the user's raw balance by the amount. -/
theorem deductPoints_ok_facts (db : DB) (u : ℕ) (amt : ℚ) (now : ℤ) (db' : DB)
    (hids : db.points.Pairwise (fun a b => a.id ≠ b.id))
    (h : deductPoints db u amt now = .ok db') (hpos : 0 < amt) :
    rawPoints db'.points u = rawPoints db.points u - amt ∧
    db'.points.Pairwise (fun a b => a.id ≠ b.id) ∧
    db' = { db with points := db'.points } := by
  rcases deductPoints_ok_inv db u amt now db' h with ⟨hle, _⟩ | ⟨_, hshape, htot⟩
  · exact absurd hpos (not_lt.mpr hle)
  · have hplanmem : ∀ d ∈ greedyPlan (eligibleLots db.points u now) amt,
        ∃ p ∈ db.points, p.id = d.1 ∧ p.userId = u := by
      intro d hd
      obtain ⟨x, hx, hdx⟩ := greedyPlan_mem _ _ d hd
      have hxm := (eligibleLots_mem_iff db.points u now x).mp hx
      exact ⟨x, hxm.1, hdx.symm, eligibleLots_user db.points u now x hx⟩
    refine ⟨?_, ?_, ?_⟩
    · rw [hshape]
      show rawPoints (applyPlan _ db.points) u = _
      rw [rawPoints_applyPlan _ _ _ hids hplanmem, htot]
    · rw [hshape]
      show (applyPlan _ db.points).Pairwise _
      rw [applyPlan_eq_map, List.pairwise_map]
      exact hids.imp (fun h => h)
    · rw [hshape]

/-- Incrementing the unique row with a given id raises the owner's raw
balance by exactly that amount. -/
theorem rawPoints_map_inc (pts : List UserPoint) (u j : ℕ) (d : ℚ)
    (hids : pts.Pairwise (fun a b => a.id ≠ b.id))
    (hmem : ∃ p ∈ pts, p.id = j ∧ p.userId = u) :
    rawPoints (pts.map (fun p =>
        if p.id == j then { p with amount := p.amount + d } else p)) u =
      rawPoints pts u + d := by
  induction pts with
  | nil => simp at hmem
  | cons x rest ih =>
    have hxids : ∀ q ∈ rest, x.id ≠ q.id := fun q hq =>
      (List.pairwise_cons.mp hids).1 q hq
    have hidsr := (List.pairwise_cons.mp hids).2
    simp only [List.map_cons]
    by_cases hx : x.id = j
    · have hxu : x.userId = u := by
        obtain ⟨p, hp, hpj, hpu⟩ := hmem
        rcases List.mem_cons.mp hp with rfl | hpr
        · exact hpu
        · exact absurd (hpj.trans hx.symm).symm (hxids p hpr)
      have hrest : rest.map (fun p =>
          if p.id == j then { p with amount := p.amount + d } else p) = rest := by
        refine (List.map_congr_left ?_).trans (List.map_id' rest)
        intro q hq
        have hq' : ¬ q.id = j := fun hh => (hxids q hq) (hx.trans hh.symm)
        simp [hq']
      rw [if_pos (by simp [hx]), hrest]
      simp only [rawPoints_cons, if_pos hxu]
      ring
    · obtain ⟨p, hp, hpj, hpu⟩ := hmem
      rcases List.mem_cons.mp hp with rfl | hpr
      · exact absurd hpj hx
      · rw [if_neg (by simp [hx])]
        simp only [rawPoints_cons, ih hidsr ⟨p, hpr, hpj, hpu⟩]
        ring

theorem rawPoints_append (l1 l2 : List UserPoint) (u : ℕ) :
    rawPoints (l1 ++ l2) u = rawPoints l1 u + rawPoints l2 u := by
  simp [rawPoints, List.filter_append]

/-- Restoration raises the user's raw balance by the amount and touches only
the points table (and the id counter). -/
theorem restorePoints_facts (db : DB) (u : ℕ) (amount : ℚ) (now : ℤ)
    (hids : db.points.Pairwise (fun a b => a.id ≠ b.id)) (hamt : 0 < amount) :
    rawPoints (restorePoints db u amount now).points u =
      rawPoints db.points u + amount ∧
    restorePoints db u amount now = { db with
      points := (restorePoints db u amount now).points
      nextId := (restorePoints db u amount now).nextId } := by
  unfold restorePoints
  rw [if_neg (not_le.mpr hamt)]
  cases hl : latestLot db.points u with
  | some p =>
    obtain ⟨hmem, huser, _⟩ := latestLot_some db.points u p hl
    exact ⟨rawPoints_map_inc db.points u p.id amount hids ⟨p, hmem, rfl, huser⟩,
      rfl⟩
  | none =>
    refine ⟨?_, rfl⟩
    rw [rawPoints_append]
    simp [rawPoints]

/-! ## C2 — create followed by expiry as a round trip -/

/-- A successful `buildItems` copies the request's quantities line by line. -/
theorem buildItems_ok_quantities (evT : List TicketType) (reqL : List ReqItem)
    (items : List TransactionItem) (h : buildItems evT reqL = .ok items) :
    items.map (·.quantity) = reqL.map (·.quantity) := by
  induction reqL generalizing items with
  | nil =>
    cases h
    rfl
  | cons line rest ih =>
    simp only [buildItems] at h
    split at h
    · cases h
    next tt hfind =>
      simp only [bind, Except.bind] at h
      split at h
      · cases h
      next ritems hrest =>
        cases h
        simp [ih ritems hrest]

/-- Characterization of STEP 6's outcome: an applied coupon is one of the
coupon rows and was unused at lookup (`isUsed: false` is in the filter). -/
theorem applyCoupon_ok (coupons : List UserCoupon) (userId : ℕ)
    (code? : Option String) (totalAmount : ℚ) (now : ℤ) (d : ℚ)
    (oc : Option UserCoupon)
    (h : applyCoupon coupons userId code? totalAmount now = .ok (d, oc)) :
    ∀ c, oc = some c → c ∈ coupons ∧ c.isUsed = false := by
  unfold applyCoupon at h
  split at h
  · cases h
    intro c hc
    cases hc
  next code =>
  split at h
  · cases h
    intro c hc
    cases hc
  · split at h
    next hlook =>
      cases h
      intro c hc
      cases hc
    next coupon hlook =>
      dsimp only [] at h
      split at h
      · cases h
      · cases h
        intro c hc
        cases hc
        have hp := List.find?_some hlook
        simp only [Bool.and_eq_true, Bool.not_eq_true', beq_iff_eq,
          decide_eq_true_eq] at hp
        exact ⟨List.mem_of_find?_eq_some hlook, hp.1.2⟩

/-- The fields written by `rollbackTransaction` once the booking is found:
tickets released, seats released, voucher un-counted, coupon un-used, and
(for a points booking) the debit re-credited. -/
theorem rollbackTransaction_fields (db0 : DB) (txid : ℕ) (now2 : ℤ)
    (tx : Transaction)
    (hfind : db0.transactions.find? (fun t => t.id == txid) = some tx) :
    ∃ dbD : DB,
      rollbackTransaction db0 txid now2 =
        (if tx.pointsUsed > 0 then
          restorePoints dbD tx.userId tx.pointsUsed now2 else dbD) ∧
      dbD.ticketTypes = releaseTickets tx.items db0.ticketTypes ∧
      dbD.events = db0.events.map (fun e =>
        if e.id == tx.eventId then
          { e with bookedSeats := e.bookedSeats - itemsTotalQuantity tx.items }
        else e) ∧
      dbD.vouchers = (match tx.voucherId with
        | some vid => db0.vouchers.map (fun v =>
            if v.id == vid then { v with usedCount := v.usedCount - 1 } else v)
        | none => db0.vouchers) ∧
      dbD.coupons = (match tx.couponId with
        | some cid => db0.coupons.map (fun c =>
            if c.id == cid then { c with isUsed := false } else c)
        | none => db0.coupons) ∧
      dbD.points = db0.points ∧
      dbD.transactions = db0.transactions ∧
      dbD.nextId = db0.nextId := by
  unfold rollbackTransaction
  rw [hfind]
  dsimp only []
  cases hv : tx.voucherId <;> cases hc : tx.couponId <;>
    exact ⟨_, rfl, rfl, rfl, rfl, rfl, rfl, rfl, rfl⟩

/-- `restorePoints` only writes the points table and the id counter. -/
theorem restorePoints_ledgers (db : DB) (u : ℕ) (a : ℚ) (now : ℤ) :
    (restorePoints db u a now).ticketTypes = db.ticketTypes ∧
    (restorePoints db u a now).events = db.events ∧
    (restorePoints db u a now).vouchers = db.vouchers ∧
    (restorePoints db u a now).coupons = db.coupons := by
  unfold restorePoints
  split
  · exact ⟨rfl, rfl, rfl, rfl⟩
  · split <;> exact ⟨rfl, rfl, rfl, rfl⟩

/-- C2 (amended): from any successful booking, both failure paths — the
direct expiry sweep (status `EXPIRED`) and upload-then-reject (status
`REJECTED`) — restore the ticket counters, the event rows, the voucher
rows, the coupon rows, and the buyer's **total** raw point balance to
their pre-booking values.  (The per-lot point balances are NOT restored —
see the counterexample.) -/
theorem create_then_expire_roundtrip (db : DB) (userId : ℕ)
    (req : TransactionCreateRequest) (now : ℤ) (db' : DB) (t : Transaction)
    (h : createTransaction db userId req now = .ok (db', t))
    (hcids : db.coupons.Pairwise (fun a b => a.id ≠ b.id))
    (hpids : db.points.Pairwise (fun a b => a.id ≠ b.id))
    (hfresh : ∀ tx ∈ db.transactions, tx.id ≠ t.id) :
    (∀ now2 : ℤ,
      (expireTransaction db' t.id now2).ticketTypes = db.ticketTypes ∧
      (expireTransaction db' t.id now2).events = db.events ∧
      (expireTransaction db' t.id now2).vouchers = db.vouchers ∧
      (expireTransaction db' t.id now2).coupons = db.coupons ∧
      rawPoints (expireTransaction db' t.id now2).points userId =
        rawPoints db.points userId) ∧
    (∀ (uploaderId organizerId : ℕ) (now1 now2 : ℤ) (db2 db3 : DB),
      uploadPaymentProof db' t.id uploaderId now1 = .ok db2 →
      confirmTransaction db2 t.id organizerId false now2 = .ok db3 →
      db3.ticketTypes = db.ticketTypes ∧
      db3.events = db.events ∧
      db3.vouchers = db.vouchers ∧
      db3.coupons = db.coupons ∧
      rawPoints db3.points userId = rawPoints db.points userId) := by
  obtain ⟨event, ups, appliedVoucher, appliedCoupon, newTts,
    hne, hev, hval, hitems, hseats, happlyv, happlyc, hvid, hcid,
    hid, huid, heid, hstat, hpts, hptsle, hexp, happly, hded, hnod⟩ :=
    createTransaction_ok_inv db userId req now db' t h
  obtain ⟨hupsreq, hitemsreq, hupsfacts, hitemspos⟩ :=
    validate_buildItems_facts _ _ _ _ _ hval hitems
  -- shape of the committed state db'
  have hdb' : db'.transactions = t :: db.transactions ∧
      db'.ticketTypes = newTts ∧
      db'.events = (dbAfterWrites db req t newTts appliedVoucher
        appliedCoupon).events ∧
      db'.vouchers = (dbAfterWrites db req t newTts appliedVoucher
        appliedCoupon).vouchers ∧
      db'.coupons = (dbAfterWrites db req t newTts appliedVoucher
        appliedCoupon).coupons ∧
      db'.points.Pairwise (fun a b => a.id ≠ b.id) ∧
      rawPoints db'.points userId = rawPoints db.points userId - t.pointsUsed := by
    by_cases hppos : req.pointsUsed > 0
    · obtain ⟨hraw, hpw, hshape⟩ := deductPoints_ok_facts
        (dbAfterWrites db req t newTts appliedVoucher appliedCoupon) userId
        req.pointsUsed now db' hpids (hded hppos) hppos
      refine ⟨?_, ?_, ?_, ?_, ?_, hpw, ?_⟩
      · rw [hshape]
        rfl
      · rw [hshape]
        rfl
      · rw [hshape]
      · rw [hshape]
      · rw [hshape]
      · rw [hraw, hpts, if_pos hppos]
        rfl
    · rw [hnod hppos]
      refine ⟨rfl, rfl, rfl, rfl, rfl, hpids, ?_⟩
      show rawPoints db.points userId = rawPoints db.points userId - t.pointsUsed
      rw [hpts, if_neg hppos, sub_zero]
  obtain ⟨htx, httC, hevC, hvC, hcC, hpw', hraw'⟩ := hdb'
  -- tickets cancel row by row
  have hticket : releaseTickets t.items newTts = db.ticketTypes := by
    rw [applyTicketUpdates_ok_eq ups db.ticketTypes newTts happly,
      releaseTickets_eq, List.map_map]
    refine (List.map_congr_left ?_).trans (List.map_id' _)
    intro t0 _
    simp only [Function.comp_apply]
    show ({ t0 with soldQuantity :=
      t0.soldQuantity + upsQty ups t0.id - itemsQty t.items t0.id }) = t0
    have hc : t0.soldQuantity + upsQty ups t0.id - itemsQty t.items t0.id =
        t0.soldQuantity := by
      rw [hitemsreq t0.id, ← hupsreq t0.id]
      ring
    rw [hc]
  -- the seat totals of the two passes agree
  have hsum : itemsTotalQuantity t.items = sumQuantities req.ticketTypes := by
    rw [itemsTotalQuantity_eq, sumQuantities_eq,
      buildItems_ok_quantities _ _ _ hitems]
  -- seats cancel row by row
  have hevents : (dbAfterWrites db req t newTts appliedVoucher
      appliedCoupon).events.map (fun e =>
        if e.id == t.eventId then
          { e with bookedSeats := e.bookedSeats - itemsTotalQuantity t.items }
        else e) = db.events := by
    show (db.events.map _).map _ = db.events
    rw [List.map_map]
    refine (List.map_congr_left ?_).trans (List.map_id' _)
    intro e _
    simp only [Function.comp_apply]
    by_cases hide : e.id = req.eventId
    · rw [if_pos (by simp [hide, heid]), if_pos (by simp [hide, heid])]
      show ({ e with bookedSeats :=
        e.bookedSeats + sumQuantities req.ticketTypes -
          itemsTotalQuantity t.items }) = e
      have hc : e.bookedSeats + sumQuantities req.ticketTypes -
          itemsTotalQuantity t.items = e.bookedSeats := by
        rw [hsum]
        ring
      rw [hc]
    · rw [if_neg (by simp [hide, heid]), if_neg (by simp [hide, heid])]
  -- vouchers cancel row by row
  have hvouchers : (match t.voucherId with
      | some vid => (dbAfterWrites db req t newTts appliedVoucher
          appliedCoupon).vouchers.map (fun v =>
            if v.id == vid then { v with usedCount := v.usedCount - 1 } else v)
      | none => (dbAfterWrites db req t newTts appliedVoucher
          appliedCoupon).vouchers) = db.vouchers := by
    cases hav : appliedVoucher with
    | none =>
      rw [hvid, hav]
      rfl
    | some v =>
      rw [hvid, hav]
      show ((db.vouchers.map _).map _ : List Voucher) = db.vouchers
      rw [List.map_map]
      refine (List.map_congr_left ?_).trans (List.map_id' _)
      intro w _
      simp only [Function.comp_apply]
      by_cases hidw : w.id = v.id
      · rw [if_pos (by simp [hidw]), if_pos (by simp [hidw])]
        show ({ w with usedCount := w.usedCount + 1 - 1 }) = w
        have hc : w.usedCount + 1 - 1 = w.usedCount := by ring
        rw [hc]
      · rw [if_neg (by simp [hidw]), if_neg (by simp [hidw])]
  -- coupons cancel row by row (the applied coupon was unused at lookup)
  have hcoupons : (match t.couponId with
      | some cid => (dbAfterWrites db req t newTts appliedVoucher
          appliedCoupon).coupons.map (fun c =>
            if c.id == cid then { c with isUsed := false } else c)
      | none => (dbAfterWrites db req t newTts appliedVoucher
          appliedCoupon).coupons) = db.coupons := by
    cases hac : appliedCoupon with
    | none =>
      rw [hcid, hac]
      rfl
    | some c =>
      obtain ⟨hcmem, hcunused⟩ := applyCoupon_ok _ _ _ _ _ _ _ happlyc c
        (by rw [hac])
      rw [hcid, hac]
      show ((db.coupons.map _).map _ : List UserCoupon) = db.coupons
      rw [List.map_map]
      refine (List.map_congr_left ?_).trans (List.map_id' _)
      intro w hw
      simp only [Function.comp_apply]
      by_cases hidw : w.id = c.id
      · have hwc : w = c := mem_eq_of_pairwise_key (fun r => r.id) hcids hw
          hcmem hidw
        rw [if_pos (by simp [hidw]), if_pos (by simp [hidw])]
        show ({ w with isUsed := false }) = w
        rw [hwc, ← hcunused]
      · rw [if_neg (by simp [hidw]), if_neg (by simp [hidw])]
  refine ⟨?_, ?_⟩
  · intro now2
    -- the expiry finds the (head) booking, still WAITING_FOR_PAYMENT
    have hfind1 : db'.transactions.find? (fun tx => tx.id == t.id) = some t := by
      rw [htx]
      simp [List.find?]
    have hstep : expireTransaction db' t.id now2 =
        rollbackTransaction { db' with transactions := db'.transactions.map (fun tx => if tx.id == t.id then { tx with status := .EXPIRED } else tx) } t.id now2 := by
      unfold expireTransaction
      rw [hfind1]
      dsimp only []
      rw [if_neg (by simp [hstat])]
    have hfind2 : ({ db' with transactions := db'.transactions.map (fun tx => if tx.id == t.id then { tx with status := .EXPIRED } else tx) } : DB).transactions.find? (fun tx => tx.id == t.id) =
        some { t with status := .EXPIRED } := by
      show (db'.transactions.map _).find? _ = _
      rw [htx]
      simp [List.find?]
    obtain ⟨dbD, hrun, hDtt, hDev, hDv, hDc, hDp, _, _⟩ :=
      rollbackTransaction_fields _ t.id now2 _ hfind2
    rw [hstep, hrun]
    by_cases hppos : req.pointsUsed > 0
    · have htpos : t.pointsUsed > 0 := by
        rw [hpts, if_pos hppos]
        exact hppos
      rw [if_pos htpos]
      have hDpw : dbD.points.Pairwise (fun a b => a.id ≠ b.id) := by
        rw [hDp]
        exact hpw'
      obtain ⟨hrrraw, hrshape⟩ := restorePoints_facts dbD
        ({ t with status := TransactionStatus.EXPIRED } : Transaction).userId
        ({ t with status := TransactionStatus.EXPIRED } : Transaction).pointsUsed
        now2 hDpw htpos
      refine ⟨?_, ?_, ?_, ?_, ?_⟩
      · rw [hrshape]
        show dbD.ticketTypes = db.ticketTypes
        rw [hDtt]
        show releaseTickets t.items db'.ticketTypes = db.ticketTypes
        rw [httC]
        exact hticket
      · rw [hrshape]
        show dbD.events = db.events
        rw [hDev]
        show db'.events.map _ = db.events
        rw [hevC]
        exact hevents
      · rw [hrshape]
        show dbD.vouchers = db.vouchers
        rw [hDv]
        show (match t.voucherId with
          | some vid => db'.vouchers.map (fun v =>
              if v.id == vid then { v with usedCount := v.usedCount - 1 } else v)
          | none => db'.vouchers) = db.vouchers
        rw [hvC]
        exact hvouchers
      · rw [hrshape]
        show dbD.coupons = db.coupons
        rw [hDc]
        show (match t.couponId with
          | some cid => db'.coupons.map (fun c =>
              if c.id == cid then { c with isUsed := false } else c)
          | none => db'.coupons) = db.coupons
        rw [hcC]
        exact hcoupons
      · have huid' : ({ t with status := TransactionStatus.EXPIRED } :
            Transaction).userId = userId := huid
        rw [huid'] at hrrraw ⊢
        rw [hrrraw]
        show rawPoints dbD.points userId + t.pointsUsed = rawPoints db.points userId
        rw [hDp]
        show rawPoints db'.points userId + t.pointsUsed = rawPoints db.points userId
        rw [hraw']
        ring
    · have htzero : ¬ ({ t with status := TransactionStatus.EXPIRED } :
          Transaction).pointsUsed > 0 := by
        show ¬ t.pointsUsed > 0
        rw [hpts, if_neg hppos]
        exact lt_irrefl 0
      rw [if_neg htzero]
      refine ⟨?_, ?_, ?_, ?_, ?_⟩
      · rw [hDtt]
        show releaseTickets t.items db'.ticketTypes = db.ticketTypes
        rw [httC]
        exact hticket
      · rw [hDev]
        show db'.events.map _ = db.events
        rw [hevC]
        exact hevents
      · rw [hDv]
        show (match t.voucherId with
          | some vid => db'.vouchers.map (fun v =>
              if v.id == vid then { v with usedCount := v.usedCount - 1 } else v)
          | none => db'.vouchers) = db.vouchers
        rw [hvC]
        exact hvouchers
      · rw [hDc]
        show (match t.couponId with
          | some cid => db'.coupons.map (fun c =>
              if c.id == cid then { c with isUsed := false } else c)
          | none => db'.coupons) = db.coupons
        rw [hcC]
        exact hcoupons
      · rw [hDp]
        show rawPoints db'.points userId = rawPoints db.points userId
        rw [hraw']
        show rawPoints db.points userId - t.pointsUsed = rawPoints db.points userId
        rw [hpts, if_neg hppos, sub_zero]
  · intro uploaderId organizerId now1 now2 db2 db3 hup hconf
    -- the uploaded state: only payments and the booking's status change
    have hmaptx : db'.transactions.map (fun tx =>
        if tx.id == t.id then
          { tx with status := TransactionStatus.WAITING_FOR_CONFIRMATION }
        else tx) =
        { t with status := TransactionStatus.WAITING_FOR_CONFIRMATION } ::
          db.transactions := by
      rw [htx]
      simp only [List.map_cons]
      congr 1
      · rw [if_pos (by simp)]
      · refine (List.map_congr_left ?_).trans (List.map_id' _)
        intro q hq
        rw [if_neg (by simp [hfresh q hq])]
    have hupinv : db2.ticketTypes = db'.ticketTypes ∧
        db2.events = db'.events ∧
        db2.vouchers = db'.vouchers ∧
        db2.coupons = db'.coupons ∧
        db2.points = db'.points ∧
        db2.transactions =
          { t with status := TransactionStatus.WAITING_FOR_CONFIRMATION } ::
            db.transactions := by
      unfold uploadPaymentProof at hup
      split at hup
      · cases hup
      · split at hup
        · cases hup
        · cases hup
          refine ⟨rfl, rfl, rfl, rfl, rfl, ?_⟩
          show db'.transactions.map _ = _
          exact hmaptx
    -- the rejection rolls back and then only rewrites the booking list
    have hconfinv : db3.ticketTypes =
          (rollbackTransaction db2 t.id now2).ticketTypes ∧
        db3.events = (rollbackTransaction db2 t.id now2).events ∧
        db3.vouchers = (rollbackTransaction db2 t.id now2).vouchers ∧
        db3.coupons = (rollbackTransaction db2 t.id now2).coupons ∧
        db3.points = (rollbackTransaction db2 t.id now2).points := by
      unfold confirmTransaction at hconf
      split at hconf
      · cases hconf
      · dsimp only [] at hconf
        simp only [Bool.false_eq_true, if_false] at hconf
        cases hconf
        exact ⟨rfl, rfl, rfl, rfl, rfl⟩
    have hfindroll : db2.transactions.find? (fun tx => tx.id == t.id) =
        some { t with status := TransactionStatus.WAITING_FOR_CONFIRMATION } := by
      rw [hupinv.2.2.2.2.2, List.find?_cons_of_pos _ (by simp)]
    obtain ⟨dbD2, hrun2, hDtt2, hDev2, hDv2, hDc2, hDp2, _, _⟩ :=
      rollbackTransaction_fields db2 t.id now2 _ hfindroll
    simp only [hupinv.2.2.1, hvC] at hDv2
    simp only [hupinv.2.2.2.1, hcC] at hDc2
    refine ⟨?_, ?_, ?_, ?_, ?_⟩
    · rw [hconfinv.1, hrun2]
      split
      · rw [(restorePoints_ledgers _ _ _ _).1, hDtt2, hupinv.1, httC]
        exact hticket
      · rw [hDtt2, hupinv.1, httC]
        exact hticket
    · rw [hconfinv.2.1, hrun2]
      split
      · rw [(restorePoints_ledgers _ _ _ _).2.1, hDev2, hupinv.2.1, hevC]
        exact hevents
      · rw [hDev2, hupinv.2.1, hevC]
        exact hevents
    · rw [hconfinv.2.2.1, hrun2]
      split
      · rw [(restorePoints_ledgers _ _ _ _).2.2.1, hDv2]
        exact hvouchers
      · rw [hDv2]
        exact hvouchers
    · rw [hconfinv.2.2.2.1, hrun2]
      split
      · rw [(restorePoints_ledgers _ _ _ _).2.2.2, hDc2]
        exact hcoupons
      · rw [hDc2]
        exact hcoupons
    · rw [hconfinv.2.2.2.2, hrun2]
      by_cases hppos2 : req.pointsUsed > 0
      · have htpos2 : ({ t with status :=
            TransactionStatus.WAITING_FOR_CONFIRMATION } :
            Transaction).pointsUsed > 0 := by
          show t.pointsUsed > 0
          rw [hpts, if_pos hppos2]
          exact hppos2
        rw [if_pos htpos2]
        have hDpw2 : dbD2.points.Pairwise (fun a b => a.id ≠ b.id) := by
          rw [hDp2, hupinv.2.2.2.2.1]
          exact hpw'
        obtain ⟨hrr2, _⟩ := restorePoints_facts dbD2
          ({ t with status := TransactionStatus.WAITING_FOR_CONFIRMATION } :
            Transaction).userId
          ({ t with status := TransactionStatus.WAITING_FOR_CONFIRMATION } :
            Transaction).pointsUsed
          now2 hDpw2 htpos2
        have huid2 : ({ t with status :=
            TransactionStatus.WAITING_FOR_CONFIRMATION } :
            Transaction).userId = userId := huid
        rw [huid2] at hrr2 ⊢
        rw [hrr2]
        show rawPoints dbD2.points userId + t.pointsUsed =
          rawPoints db.points userId
        rw [hDp2, hupinv.2.2.2.2.1, hraw']
        ring
      · have htz2 : ¬ ({ t with status :=
            TransactionStatus.WAITING_FOR_CONFIRMATION } :
            Transaction).pointsUsed > 0 := by
          show ¬ t.pointsUsed > 0
          rw [hpts, if_neg hppos2]
          exact lt_irrefl 0
        rw [if_neg htz2]
        rw [hDp2, hupinv.2.2.2.2.1, hraw']
        rw [hpts, if_neg hppos2, sub_zero]

namespace Demo

/-- The request of user 2 for one 100000 ticket paying 30000 in points. -/
def reqRound : TransactionCreateRequest :=
  { eventId := 10, ticketTypes := [{ ticketTypeId := 1, quantity := 1 }],
    pointsUsed := 30000 }

/-- The booking that request creates. -/
def roundTx : Transaction :=
  { id := 100, userId := 2, eventId := 10, status := .WAITING_FOR_PAYMENT,
    totalAmount := 100000, pointsUsed := 30000, voucherId := none,
    voucherDiscount := 0, couponId := none, couponDiscount := 0,
    finalAmount := 70000, expiryTime := addHours 500 2,
    items := [{ ticketTypeId := 1, quantity := 1, pricePerTicket := 100000,
                subtotal := 100000 }] }

/-- The committed state of that booking: one seat and one ticket held, lot
40 (the soonest-expiring lot) debited by 30000. -/
def dbRoundBooked : DB :=
  { events := [{ ev with bookedSeats := 1 }],
    ticketTypes := [{ tt with soldQuantity := 1 }], vouchers := [],
    coupons := [], points := [{ lotA with amount := 20000 }, lotB],
    transactions := [roundTx], attendees := [], payments := [],
    nextId := 101 }


/-- The uploaded (`WAITING_FOR_CONFIRMATION`) state of the points booking. -/
def dbRoundUploaded : DB :=
  { dbRoundBooked with
    payments := [100]
    transactions := [{ roundTx with status := .WAITING_FOR_CONFIRMATION }] }

/-- The state after the organizer rejects the uploaded booking: all ledgers
back to their pre-booking values, the re-credit sitting on lot 41. -/
def dbRoundRejected : DB :=
  { events := [ev], ticketTypes := [tt], vouchers := [], coupons := [],
    points := [{ lotA with amount := 20000 }, { lotB with amount := 40000 }],
    transactions := [{ roundTx with status := .REJECTED }], attendees := [],
    payments := [100], nextId := 101 }

end Demo

/-- C2 as stated is false for the per-lot point balances: the debit of the
booking hits the soonest-expiring lot (40) but the expiry's re-credit goes
to the most recently created lot (41), so after create-then-expire lot 40
holds 20000 instead of its pre-booking 50000 (and lot 41 holds 40000
instead of 10000); only the raw total is back to its pre-booking value. -/
theorem create_then_expire_roundtrip_counterexample :
    ∃ db' t,
      createTransaction Demo.dbPoints 2 Demo.reqRound 500 = .ok (db', t) ∧
      lotAmount Demo.dbPoints.points 40 = 50000 ∧
      lotAmount (expireTransaction db' t.id 600).points 40 = 20000 ∧
      lotAmount Demo.dbPoints.points 41 = 10000 ∧
      lotAmount (expireTransaction db' t.id 600).points 41 = 40000 ∧
      rawPoints (expireTransaction db' t.id 600).points 2 =
        rawPoints Demo.dbPoints.points 2 := by
  refine ⟨Demo.dbRoundBooked, Demo.roundTx, ?_, ?_, ?_, ?_, ?_, ?_⟩
  · norm_num [createTransaction, Demo.dbPoints, Demo.dbRoundBooked,
      Demo.roundTx, Demo.reqRound, Demo.ev, Demo.tt, Demo.lotA, Demo.lotB,
      validateTickets, buildItems, applyTicketUpdates, bumpSold, applyVoucher,
      applyCoupon, availablePoints, sumQuantities, deductPoints, eligibleLots,
      isEligibleLot, greedyPlan, planTotal, applyPlan, List.insertionSort,
      List.orderedInsert, addHours, bind, Except.bind, pure, Except.pure,
      List.find?, List.filter, List.any, List.map]
  · norm_num [lotAmount, Demo.dbPoints, Demo.lotA, Demo.lotB,
      List.filter_cons]
  · norm_num [expireTransaction, rollbackTransaction, releaseTickets,
      restorePoints, latestLot, newerLot, itemsTotalQuantity, lotAmount,
      Demo.dbRoundBooked, Demo.roundTx, Demo.tt, Demo.ev, Demo.lotA,
      Demo.lotB, List.find?, List.filter, List.map]
  · norm_num [lotAmount, Demo.dbPoints, Demo.lotA, Demo.lotB,
      List.filter_cons]
  · norm_num [expireTransaction, rollbackTransaction, releaseTickets,
      restorePoints, latestLot, newerLot, itemsTotalQuantity, lotAmount,
      Demo.dbRoundBooked, Demo.roundTx, Demo.tt, Demo.ev, Demo.lotA,
      Demo.lotB, List.find?, List.filter, List.map]
  · norm_num [expireTransaction, rollbackTransaction, releaseTickets,
      restorePoints, latestLot, newerLot, itemsTotalQuantity, rawPoints,
      Demo.dbPoints, Demo.dbRoundBooked, Demo.roundTx, Demo.tt, Demo.ev,
      Demo.lotA, Demo.lotB, List.find?, List.filter, List.map]

/-- Witness for `create_then_expire_roundtrip`: on the points booking over
`Demo.dbPoints`, both the direct expiry and the upload-then-reject path
restore the ledgers and user 2's raw point total. -/
theorem create_then_expire_roundtrip_witness :
    ((expireTransaction Demo.dbRoundBooked Demo.roundTx.id 600).ticketTypes =
        Demo.dbPoints.ticketTypes ∧
      (expireTransaction Demo.dbRoundBooked Demo.roundTx.id 600).events =
        Demo.dbPoints.events ∧
      (expireTransaction Demo.dbRoundBooked Demo.roundTx.id 600).vouchers =
        Demo.dbPoints.vouchers ∧
      (expireTransaction Demo.dbRoundBooked Demo.roundTx.id 600).coupons =
        Demo.dbPoints.coupons ∧
      rawPoints (expireTransaction Demo.dbRoundBooked Demo.roundTx.id
          600).points 2 =
        rawPoints Demo.dbPoints.points 2) ∧
    (Demo.dbRoundRejected.ticketTypes = Demo.dbPoints.ticketTypes ∧
      Demo.dbRoundRejected.events = Demo.dbPoints.events ∧
      Demo.dbRoundRejected.vouchers = Demo.dbPoints.vouchers ∧
      Demo.dbRoundRejected.coupons = Demo.dbPoints.coupons ∧
      rawPoints Demo.dbRoundRejected.points 2 =
        rawPoints Demo.dbPoints.points 2) := by
  have hrun : createTransaction Demo.dbPoints 2 Demo.reqRound 500 =
      .ok (Demo.dbRoundBooked, Demo.roundTx) := by
    norm_num [createTransaction, Demo.dbPoints, Demo.dbRoundBooked,
      Demo.roundTx, Demo.reqRound, Demo.ev, Demo.tt, Demo.lotA, Demo.lotB,
      validateTickets, buildItems, applyTicketUpdates, bumpSold, applyVoucher,
      applyCoupon, availablePoints, sumQuantities, deductPoints, eligibleLots,
      isEligibleLot, greedyPlan, planTotal, applyPlan, List.insertionSort,
      List.orderedInsert, addHours, bind, Except.bind, pure, Except.pure,
      List.find?, List.filter, List.any, List.map]
  have hup : uploadPaymentProof Demo.dbRoundBooked Demo.roundTx.id 2 1000 =
      .ok Demo.dbRoundUploaded := by
    norm_num [uploadPaymentProof, Demo.dbRoundBooked, Demo.dbRoundUploaded,
      Demo.roundTx, Demo.tt, Demo.ev, Demo.lotA, Demo.lotB, addHours,
      List.find?, List.map, List.contains, List.elem]
  have hconf : confirmTransaction Demo.dbRoundUploaded Demo.roundTx.id 7 false
      2000 = .ok Demo.dbRoundRejected := by
    norm_num [confirmTransaction, rollbackTransaction, releaseTickets,
      restorePoints, latestLot, newerLot, itemsTotalQuantity,
      Demo.dbRoundUploaded, Demo.dbRoundBooked, Demo.dbRoundRejected,
      Demo.roundTx, Demo.tt, Demo.ev, Demo.lotA, Demo.lotB,
      List.find?, List.filter, List.map, List.any]
  have h := create_then_expire_roundtrip Demo.dbPoints 2 Demo.reqRound 500
    Demo.dbRoundBooked Demo.roundTx hrun (by simp [Demo.dbPoints])
    (by norm_num [Demo.dbPoints, Demo.lotA, Demo.lotB, List.pairwise_cons])
    (by simp [Demo.dbPoints])
  exact ⟨h.1 600, h.2 2 7 1000 2000 Demo.dbRoundUploaded Demo.dbRoundRejected
    hup hconf⟩

/-! ## C1 — inventory invariant machinery -/

/-- A booking status that still holds inventory and can still be rolled
back (`expireTransaction` requires `WAITING_FOR_PAYMENT`, the reject path
of `confirmTransaction` requires `WAITING_FOR_CONFIRMATION`). -/
def isActiveStatus (s : TransactionStatus) : Bool :=
  s == .WAITING_FOR_PAYMENT || s == .WAITING_FOR_CONFIRMATION

/-- Quantity of ticket type `i` held by rollback-able bookings. -/
def activeSold (txs : List Transaction) (i : ℕ) : ℤ :=
  ((txs.filter (fun t => isActiveStatus t.status)).map
    (fun t => itemsQty t.items i)).sum

theorem activeSold_cons (tx : Transaction) (txs : List Transaction) (i : ℕ) :
    activeSold (tx :: txs) i =
      (if isActiveStatus tx.status then itemsQty tx.items i else 0) +
        activeSold txs i := by
  by_cases h : isActiveStatus tx.status = true <;>
    simp [activeSold, List.filter_cons, h]

theorem upsQty_nonneg (ups : List TicketUpdate) (i : ℕ)
    (h : ∀ u ∈ ups, 0 ≤ u.quantity) : 0 ≤ upsQty ups i := by
  induction ups with
  | nil => simp [upsQty]
  | cons u rest ih =>
    rw [upsQty_cons]
    have h2 := ih (fun w hw => h w (List.mem_cons_of_mem u hw))
    by_cases hid : u.id = i
    · rw [if_pos hid]
      have := h u (by simp)
      linarith
    · rw [if_neg hid]
      linarith

theorem itemsQty_nonneg (items : List TransactionItem) (i : ℕ)
    (h : ∀ it ∈ items, 0 ≤ it.quantity) : 0 ≤ itemsQty items i := by
  induction items with
  | nil => simp [itemsQty]
  | cons it rest ih =>
    rw [itemsQty_cons]
    have h2 := ih (fun w hw => h w (List.mem_cons_of_mem it hw))
    by_cases hid : it.ticketTypeId = i
    · rw [if_pos hid]
      have := h it (by simp)
      linarith
    · rw [if_neg hid]
      linarith

theorem activeSold_nonneg (txs : List Transaction) (i : ℕ)
    (h : ∀ tx ∈ txs, ∀ it ∈ tx.items, 0 < it.quantity) :
    0 ≤ activeSold txs i := by
  induction txs with
  | nil => simp [activeSold]
  | cons tx rest ih =>
    rw [activeSold_cons]
    have h1 : 0 ≤ itemsQty tx.items i :=
      itemsQty_nonneg _ _ (fun it hit => (h tx (by simp) it hit).le)
    have h2 := ih (fun t ht it hit => h t (List.mem_cons_of_mem tx ht) it hit)
    by_cases ha : isActiveStatus tx.status = true
    · rw [if_pos ha]
      linarith
    · rw [if_neg ha]
      linarith

theorem activeSold_member_le (txs : List Transaction) (tx : Transaction)
    (i : ℕ) (htx : tx ∈ txs) (hact : isActiveStatus tx.status = true)
    (h : ∀ t ∈ txs, ∀ it ∈ t.items, 0 < it.quantity) :
    itemsQty tx.items i ≤ activeSold txs i := by
  induction txs with
  | nil => cases htx
  | cons hd rest ih =>
    rw [activeSold_cons]
    have hrest : ∀ t ∈ rest, ∀ it ∈ t.items, 0 < it.quantity :=
      fun t ht it hit => h t (List.mem_cons_of_mem _ ht) it hit
    rcases List.mem_cons.mp htx with rfl | hmem
    · rw [if_pos hact]
      have := activeSold_nonneg rest i hrest
      linarith
    · have h1 := ih hmem hrest
      have hq : 0 ≤ itemsQty hd.items i :=
        itemsQty_nonneg _ _ (fun it hit => (h hd (by simp) it hit).le)
      by_cases ha : isActiveStatus hd.status = true
      · rw [if_pos ha]
        linarith
      · rw [if_neg ha]
        linarith

theorem setStatus_id (j : ℕ) (s : TransactionStatus) (t : Transaction) :
    (if t.id == j then { t with status := s } else t).id = t.id := by
  split <;> rfl

theorem setStatus_items (j : ℕ) (s : TransactionStatus) (t : Transaction) :
    (if t.id == j then { t with status := s } else t).items = t.items := by
  split <;> rfl

/-- Effect on the active ledger of flipping the status of the (unique)
booking with id `j`. -/
theorem activeSold_map_status (txs : List Transaction) (j : ℕ)
    (s : TransactionStatus) (tx : Transaction) (i : ℕ)
    (hids : txs.Pairwise (fun a b => a.id ≠ b.id))
    (htx : tx ∈ txs) (hid : tx.id = j) :
    activeSold (txs.map (fun t =>
      if t.id == j then { t with status := s } else t)) i =
    activeSold txs i -
      (if isActiveStatus tx.status then itemsQty tx.items i else 0) +
      (if isActiveStatus s then itemsQty tx.items i else 0) := by
  induction txs with
  | nil => cases htx
  | cons hd rest ih =>
    have hhd : ∀ q ∈ rest, hd.id ≠ q.id := (List.pairwise_cons.mp hids).1
    have hidsr := (List.pairwise_cons.mp hids).2
    simp only [List.map_cons]
    rcases List.mem_cons.mp htx with rfl | hmem
    · have hrest : rest.map (fun t =>
          if t.id == j then { t with status := s } else t) = rest := by
        refine (List.map_congr_left ?_).trans (List.map_id' rest)
        intro q hq
        have hq' : ¬ q.id = j := fun hh => hhd q hq (hid.trans hh.symm)
        simp [hq']
      rw [if_pos (by simp [hid]), hrest, activeSold_cons, activeSold_cons]
      show (if isActiveStatus s then itemsQty tx.items i else 0) +
        activeSold rest i = _
      ring
    · have hne : ¬ hd.id = j := fun hh => hhd tx hmem (hh.trans hid.symm)
      rw [if_neg (by simp [hne]), activeSold_cons, activeSold_cons,
        ih hidsr hmem]
      ring

/-- With pairwise-distinct ids a member is what `find?`-by-id returns. -/
theorem find?_eq_of_mem_pairwise (txs : List Transaction) (tx : Transaction)
    (j : ℕ) (hids : txs.Pairwise (fun a b => a.id ≠ b.id))
    (htx : tx ∈ txs) (hid : tx.id = j) :
    txs.find? (fun t => t.id == j) = some tx := by
  induction txs with
  | nil => cases htx
  | cons hd rest ih =>
    rcases List.mem_cons.mp htx with rfl | hmem
    · rw [List.find?_cons_of_pos _ (by simp [hid])]
    · have hne : ¬ hd.id = j := fun hh =>
        (List.pairwise_cons.mp hids).1 tx hmem (hh.trans hid.symm)
      rw [List.find?_cons_of_neg _ (by simp [hne])]
      exact ih (List.pairwise_cons.mp hids).2 hmem

theorem restorePoints_nextId_ge (db : DB) (u : ℕ) (a : ℚ) (now : ℤ) :
    db.nextId ≤ (restorePoints db u a now).nextId := by
  unfold restorePoints
  split
  · exact le_refl _
  · split
    · exact le_refl _
    · exact Nat.le_succ _

/-- The committed-state invariant: sold counters within `[0, quantity]`,
backed by the active-booking ledger; booking line items positive; unique
row ids; booking ids below the id counter. -/
def LedgerInv (db : DB) : Prop :=
  (∀ t ∈ db.ticketTypes, 0 ≤ t.soldQuantity ∧ t.soldQuantity ≤ t.quantity ∧
    activeSold db.transactions t.id ≤ t.soldQuantity) ∧
  (∀ tx ∈ db.transactions, ∀ it ∈ tx.items, 0 < it.quantity) ∧
  db.ticketTypes.Pairwise (fun a b => a.id ≠ b.id) ∧
  db.transactions.Pairwise (fun a b => a.id ≠ b.id) ∧
  (∀ tx ∈ db.transactions, tx.id < db.nextId)

/-- A successful booking preserves the ledger invariant. -/
theorem LedgerInv_create (db : DB) (userId : ℕ)
    (req : TransactionCreateRequest) (now : ℤ) (db' : DB) (t : Transaction)
    (h : createTransaction db userId req now = .ok (db', t))
    (hI : LedgerInv db) : LedgerInv db' := by
  obtain ⟨hrows, hpos, httids, htxids, htxlt⟩ := hI
  obtain ⟨event, ups, appliedVoucher, appliedCoupon, newTts,
    hne, hev, hval, hitems, hseats, happlyv, happlyc, hvid, hcid,
    hid, huid, heid, hstat, hpts, hptsle, hexp, happly, hded, hnod⟩ :=
    createTransaction_ok_inv db userId req now db' t h
  obtain ⟨hupsreq, hitemsreq, hupsfacts, hitemspos⟩ :=
    validate_buildItems_facts _ _ _ _ _ hval hitems
  have hfields : db'.ticketTypes = newTts ∧
      db'.transactions = t :: db.transactions ∧
      db'.nextId = db.nextId + 1 := by
    by_cases hppos : req.pointsUsed > 0
    · rcases deductPoints_ok_inv _ _ _ _ _ (hded hppos) with
        ⟨hle, _⟩ | ⟨_, hshape, _⟩
      · exact absurd hppos (not_lt.mpr hle)
      · rw [hshape]
        exact ⟨rfl, rfl, rfl⟩
    · rw [hnod hppos]
      exact ⟨rfl, rfl, rfl⟩
  obtain ⟨httC, htxC, hnid⟩ := hfields
  have hnewTts := applyTicketUpdates_ok_eq ups db.ticketTypes newTts happly
  have hq0 : ∀ u ∈ ups, 0 ≤ u.quantity := fun u hu => (hupsfacts u hu).1.le
  have hmax : ∀ u ∈ ups, ∀ t0 ∈ db.ticketTypes, t0.id = u.id →
      u.maxQuantity = t0.quantity := by
    intro u hu t0 ht0 hid0
    obtain ⟨_, tt0, htt0, httid0, hmax0⟩ := hupsfacts u hu
    have ht0tt : t0 = tt0 := mem_eq_of_pairwise_key (fun r => r.id) httids ht0
      (List.mem_of_mem_filter htt0) (by show t0.id = tt0.id; rw [hid0, httid0])
    rw [ht0tt]
    exact hmax0
  have hbound := applyTicketUpdates_ok_bound ups db.ticketTypes newTts happly
    httids hq0 hmax
  have hact : isActiveStatus t.status = true := by
    rw [hstat]
    rfl
  refine ⟨?_, ?_, ?_, ?_, ?_⟩
  · intro t0' ht0'
    rw [httC, hnewTts] at ht0'
    obtain ⟨t0, ht0, rfl⟩ := List.mem_map.mp ht0'
    obtain ⟨hs0, hsq, has⟩ := hrows t0 ht0
    have hups0 : 0 ≤ upsQty ups t0.id := upsQty_nonneg _ _ hq0
    refine ⟨?_, ?_, ?_⟩
    · show 0 ≤ t0.soldQuantity + upsQty ups t0.id
      linarith
    · show t0.soldQuantity + upsQty ups t0.id ≤ t0.quantity
      rcases hbound t0 ht0 with h0 | hle
      · rw [h0, add_zero]
        exact hsq
      · exact hle
    · rw [htxC, activeSold_cons, if_pos hact]
      show itemsQty t.items t0.id + activeSold db.transactions t0.id ≤
        t0.soldQuantity + upsQty ups t0.id
      have heq : itemsQty t.items t0.id = upsQty ups t0.id := by
        rw [hitemsreq, hupsreq]
      linarith
  · intro tx htx it hit
    rw [htxC] at htx
    rcases List.mem_cons.mp htx with rfl | htx'
    · exact hitemspos it hit
    · exact hpos tx htx' it hit
  · rw [httC, hnewTts, List.pairwise_map]
    exact httids.imp (fun hab => hab)
  · rw [htxC]
    refine List.pairwise_cons.mpr ⟨?_, htxids⟩
    intro tx htx
    show t.id ≠ tx.id
    rw [hid]
    exact fun hh => absurd hh.symm (ne_of_lt (htxlt tx htx))
  · intro tx htx
    rw [htxC] at htx
    rw [hnid]
    rcases List.mem_cons.mp htx with rfl | htx'
    · rw [hid]
      exact Nat.lt_succ_self _
    · exact Nat.lt_trans (htxlt tx htx') (Nat.lt_succ_self _)

/-- A successful payment-proof upload preserves the ledger invariant
(`WAITING_FOR_PAYMENT` and `WAITING_FOR_CONFIRMATION` both hold
inventory). -/
theorem LedgerInv_upload (db : DB) (transactionId userId : ℕ) (now : ℤ)
    (db' : DB) (h : uploadPaymentProof db transactionId userId now = .ok db')
    (hI : LedgerInv db) : LedgerInv db' := by
  obtain ⟨hrows, hpos, httids, htxids, htxlt⟩ := hI
  unfold uploadPaymentProof at h
  split at h
  · cases h
  next tx hfind =>
    split at h
    · cases h
    next hlate =>
      cases h
      have htxmem := List.mem_of_find?_eq_some hfind
      have hp := List.find?_some hfind
      simp only [Bool.and_eq_true, beq_iff_eq] at hp
      obtain ⟨⟨hid1, _⟩, hst1⟩ := hp
      have hact1 : isActiveStatus tx.status = true := by
        rw [hst1]
        rfl
      refine ⟨?_, ?_, httids, ?_, ?_⟩
      · intro t0 ht0
        obtain ⟨hs0, hsq, has⟩ := hrows t0 ht0
        refine ⟨hs0, hsq, ?_⟩
        show activeSold (db.transactions.map (fun t =>
          if t.id == transactionId then
            { t with status := .WAITING_FOR_CONFIRMATION } else t)) t0.id ≤
          t0.soldQuantity
        rw [activeSold_map_status db.transactions transactionId
          .WAITING_FOR_CONFIRMATION tx t0.id htxids htxmem hid1,
          if_pos hact1, if_pos (by rfl)]
        linarith
      · intro tx' htx' it hit
        obtain ⟨t1, ht1, rfl⟩ := List.mem_map.mp htx'
        rw [setStatus_items] at hit
        exact hpos t1 ht1 it hit
      · show (db.transactions.map _).Pairwise _
        rw [List.pairwise_map]
        refine htxids.imp_of_mem ?_
        intro a b _ _ hab
        rw [setStatus_id, setStatus_id]
        exact hab
      · intro tx' htx'
        obtain ⟨t1, ht1, rfl⟩ := List.mem_map.mp htx'
        rw [setStatus_id]
        exact htxlt t1 ht1

theorem restorePoints_ticketTypes (db : DB) (u : ℕ) (a : ℚ) (now : ℤ) :
    (restorePoints db u a now).ticketTypes = db.ticketTypes := by
  unfold restorePoints
  split
  · rfl
  · split <;> rfl

/-- A successful confirmation (accept or reject) preserves the ledger
invariant. -/
theorem LedgerInv_confirm (db : DB) (transactionId organizerId : ℕ)
    (isAccepted : Bool) (now : ℤ) (db' : DB)
    (h : confirmTransaction db transactionId organizerId isAccepted now =
      .ok db')
    (hI : LedgerInv db) : LedgerInv db' := by
  obtain ⟨hrows, hpos, httids, htxids, htxlt⟩ := hI
  unfold confirmTransaction at h
  split at h
  · cases h
  next tx hfind =>
    dsimp only [] at h
    have htxmem := List.mem_of_find?_eq_some hfind
    have hp := List.find?_some hfind
    simp only [Bool.and_eq_true, beq_iff_eq] at hp
    obtain ⟨⟨hid1, _⟩, hst1⟩ := hp
    have hact1 : isActiveStatus tx.status = true := by
      rw [hst1]
      rfl
    cases isAccepted with
    | true =>
      simp only [ite_true] at h
      cases h
      refine ⟨?_, ?_, httids, ?_, ?_⟩
      · intro t0 ht0
        obtain ⟨hs0, hsq, has⟩ := hrows t0 ht0
        refine ⟨hs0, hsq, ?_⟩
        show activeSold (db.transactions.map (fun t =>
          if t.id == transactionId then { t with status := .DONE } else t))
          t0.id ≤ t0.soldQuantity
        rw [activeSold_map_status db.transactions transactionId .DONE tx t0.id
          htxids htxmem hid1, if_pos hact1, if_neg (by decide)]
        have hInn : 0 ≤ itemsQty tx.items t0.id :=
          itemsQty_nonneg _ _ (fun it hit => (hpos tx htxmem it hit).le)
        linarith
      · intro tx' htx' it hit
        obtain ⟨t1, ht1, rfl⟩ := List.mem_map.mp htx'
        rw [setStatus_items] at hit
        exact hpos t1 ht1 it hit
      · show (db.transactions.map _).Pairwise _
        rw [List.pairwise_map]
        refine htxids.imp_of_mem ?_
        intro a b _ _ hab
        rw [setStatus_id, setStatus_id]
        exact hab
      · intro tx' htx'
        obtain ⟨t1, ht1, rfl⟩ := List.mem_map.mp htx'
        rw [setStatus_id]
        exact htxlt t1 ht1
    | false =>
      simp only [Bool.false_eq_true, if_false] at h
      cases h
      have hfindroll : db.transactions.find? (fun t =>
          t.id == transactionId) = some tx :=
        find?_eq_of_mem_pairwise db.transactions tx transactionId htxids
          htxmem hid1
      obtain ⟨dbD, hrun, hDtt, hDev, hDv, hDc, hDp, hDtx, hDnid⟩ :=
        rollbackTransaction_fields db transactionId now tx hfindroll
      have hdb1 : (rollbackTransaction db transactionId now).ticketTypes =
          releaseTickets tx.items db.ticketTypes ∧
          (rollbackTransaction db transactionId now).transactions =
            db.transactions ∧
          db.nextId ≤ (rollbackTransaction db transactionId now).nextId := by
        rw [hrun]
        split
        · refine ⟨?_, ?_, ?_⟩
          · rw [restorePoints_ticketTypes, hDtt]
          · rw [restorePoints_transactions, hDtx]
          · rw [← hDnid]
            exact restorePoints_nextId_ge _ _ _ _
        · exact ⟨hDtt, hDtx, le_of_eq hDnid.symm⟩
      obtain ⟨h1tt, h1tx, h1nid⟩ := hdb1
      refine ⟨?_, ?_, ?_, ?_, ?_⟩
      · intro t0' ht0'
        dsimp only [] at ht0'
        rw [h1tt, releaseTickets_eq] at ht0'
        obtain ⟨t0, ht0, rfl⟩ := List.mem_map.mp ht0'
        obtain ⟨hs0, hsq, has⟩ := hrows t0 ht0
        have hInn : 0 ≤ itemsQty tx.items t0.id :=
          itemsQty_nonneg _ _ (fun it hit => (hpos tx htxmem it hit).le)
        have hmle : itemsQty tx.items t0.id ≤ activeSold db.transactions t0.id :=
          activeSold_member_le db.transactions tx t0.id htxmem hact1 hpos
        refine ⟨?_, ?_, ?_⟩
        · show 0 ≤ t0.soldQuantity - itemsQty tx.items t0.id
          linarith
        · show t0.soldQuantity - itemsQty tx.items t0.id ≤ t0.quantity
          linarith
        · dsimp only []
          rw [h1tx, activeSold_map_status db.transactions transactionId
            .REJECTED tx t0.id htxids htxmem hid1, if_pos hact1,
            if_neg (by decide)]
          show activeSold db.transactions t0.id -
            itemsQty tx.items t0.id + 0 ≤
            t0.soldQuantity - itemsQty tx.items t0.id
          linarith
      · intro tx' htx' it hit
        dsimp only [] at htx'
        rw [h1tx] at htx'
        obtain ⟨t1, ht1, rfl⟩ := List.mem_map.mp htx'
        rw [setStatus_items] at hit
        exact hpos t1 ht1 it hit
      · dsimp only []
        rw [h1tt, releaseTickets_eq, List.pairwise_map]
        exact httids.imp (fun hab => hab)
      · dsimp only []
        rw [h1tx, List.pairwise_map]
        refine htxids.imp_of_mem ?_
        intro a b _ _ hab
        rw [setStatus_id, setStatus_id]
        exact hab
      · intro tx' htx'
        dsimp only [] at htx'
        rw [h1tx] at htx'
        obtain ⟨t1, ht1, rfl⟩ := List.mem_map.mp htx'
        show (if t1.id == transactionId then
          { t1 with status := TransactionStatus.REJECTED } else t1).id <
          (rollbackTransaction db transactionId now).nextId
        rw [setStatus_id]
        exact lt_of_lt_of_le (htxlt t1 ht1) h1nid

/-- The expiry sweep preserves the ledger invariant. -/
theorem LedgerInv_expire (db : DB) (transactionId : ℕ) (now : ℤ)
    (hI : LedgerInv db) : LedgerInv (expireTransaction db transactionId now) := by
  obtain ⟨hrows, hpos, httids, htxids, htxlt⟩ := hI
  unfold expireTransaction
  split
  · exact ⟨hrows, hpos, httids, htxids, htxlt⟩
  next tx hfind =>
    split
    next => exact ⟨hrows, hpos, httids, htxids, htxlt⟩
    next hstatus =>
      push_neg at hstatus
      dsimp only []
      have htxmem := List.mem_of_find?_eq_some hfind
      have hp := List.find?_some hfind
      simp only [beq_iff_eq] at hp
      have hact1 : isActiveStatus tx.status = true := by
        rw [hstatus]
        rfl
      have hmem2 : ({ tx with status := TransactionStatus.EXPIRED } :
          Transaction) ∈ db.transactions.map (fun t =>
            if t.id == transactionId then
              { t with status := TransactionStatus.EXPIRED } else t) := by
        have hm := List.mem_map_of_mem (fun t =>
          if t.id == transactionId then
            ({ t with status := TransactionStatus.EXPIRED } : Transaction)
          else t) htxmem
        dsimp only [] at hm
        rw [if_pos (by simp [hp])] at hm
        exact hm
      have hids2 : (db.transactions.map (fun t =>
          if t.id == transactionId then
            { t with status := TransactionStatus.EXPIRED } else t)).Pairwise
          (fun a b => a.id ≠ b.id) := by
        rw [List.pairwise_map]
        refine htxids.imp_of_mem ?_
        intro a b _ _ hab
        rw [setStatus_id, setStatus_id]
        exact hab
      have hfind2 : (({ db with transactions := db.transactions.map (fun t => if t.id == transactionId then { t with status := TransactionStatus.EXPIRED } else t) } : DB)).transactions.find? (fun t => t.id == transactionId) =
          some { tx with status := TransactionStatus.EXPIRED } := by
        show (db.transactions.map _).find? _ = _
        exact find?_eq_of_mem_pairwise _ _ _ hids2 hmem2 hp
      obtain ⟨dbD, hrun, hDtt, hDev, hDv, hDc, hDp, hDtx, hDnid⟩ :=
        rollbackTransaction_fields _ transactionId now _ hfind2
      have hdb1 : (rollbackTransaction { db with transactions := db.transactions.map (fun t => if t.id == transactionId then { t with status := TransactionStatus.EXPIRED } else t) } transactionId now).ticketTypes =
          releaseTickets tx.items db.ticketTypes ∧
          (rollbackTransaction { db with transactions := db.transactions.map (fun t => if t.id == transactionId then { t with status := TransactionStatus.EXPIRED } else t) } transactionId now).transactions =
            db.transactions.map (fun t =>
              if t.id == transactionId then
                { t with status := TransactionStatus.EXPIRED } else t) ∧
          db.nextId ≤ (rollbackTransaction { db with transactions := db.transactions.map (fun t => if t.id == transactionId then { t with status := TransactionStatus.EXPIRED } else t) } transactionId now).nextId := by
        rw [hrun]
        split
        · refine ⟨?_, ?_, ?_⟩
          · rw [restorePoints_ticketTypes, hDtt]
          · rw [restorePoints_transactions, hDtx]
          · rw [← hDnid]
            exact restorePoints_nextId_ge _ _ _ _
        · exact ⟨hDtt, hDtx, le_of_eq hDnid.symm⟩
      obtain ⟨h1tt, h1tx, h1nid⟩ := hdb1
      refine ⟨?_, ?_, ?_, ?_, ?_⟩
      · intro t0' ht0'
        rw [h1tt, releaseTickets_eq] at ht0'
        obtain ⟨t0, ht0, rfl⟩ := List.mem_map.mp ht0'
        obtain ⟨hs0, hsq, has⟩ := hrows t0 ht0
        have hInn : 0 ≤ itemsQty tx.items t0.id :=
          itemsQty_nonneg _ _ (fun it hit => (hpos tx htxmem it hit).le)
        have hmle : itemsQty tx.items t0.id ≤ activeSold db.transactions t0.id :=
          activeSold_member_le db.transactions tx t0.id htxmem hact1 hpos
        refine ⟨?_, ?_, ?_⟩
        · show 0 ≤ t0.soldQuantity - itemsQty tx.items t0.id
          linarith
        · show t0.soldQuantity - itemsQty tx.items t0.id ≤ t0.quantity
          linarith
        · rw [h1tx, activeSold_map_status db.transactions transactionId
            TransactionStatus.EXPIRED tx t0.id htxids htxmem hp,
            if_pos hact1, if_neg (by decide)]
          show activeSold db.transactions t0.id -
            itemsQty tx.items t0.id + 0 ≤
            t0.soldQuantity - itemsQty tx.items t0.id
          linarith
      · intro tx' htx' it hit
        rw [h1tx] at htx'
        obtain ⟨t1, ht1, rfl⟩ := List.mem_map.mp htx'
        rw [setStatus_items] at hit
        exact hpos t1 ht1 it hit
      · rw [h1tt, releaseTickets_eq, List.pairwise_map]
        exact httids.imp (fun hab => hab)
      · rw [h1tx]
        exact hids2
      · intro tx' htx'
        rw [h1tx] at htx'
        obtain ⟨t1, ht1, rfl⟩ := List.mem_map.mp htx'
        show (if t1.id == transactionId then
          { t1 with status := TransactionStatus.EXPIRED } else t1).id <
          (rollbackTransaction { db with transactions := db.transactions.map (fun t => if t.id == transactionId then { t with status := TransactionStatus.EXPIRED } else t) } transactionId now).nextId
        rw [setStatus_id]
        exact lt_of_lt_of_le (htxlt t1 ht1) h1nid

/-- One committed engine operation (errors commit nothing, so only the
`.ok` outcomes and the unconditional expiry sweep change the database). -/
inductive Step : DB → DB → Prop
  | create (db : DB) (userId : ℕ) (req : TransactionCreateRequest) (now : ℤ)
      (db' : DB) (t : Transaction)
      (h : createTransaction db userId req now = .ok (db', t)) : Step db db'
  | upload (db : DB) (transactionId userId : ℕ) (now : ℤ) (db' : DB)
      (h : uploadPaymentProof db transactionId userId now = .ok db') :
      Step db db'
  | confirm (db : DB) (transactionId organizerId : ℕ) (isAccepted : Bool)
      (now : ℤ) (db' : DB)
      (h : confirmTransaction db transactionId organizerId isAccepted now =
        .ok db') : Step db db'
  | expire (db : DB) (transactionId : ℕ) (now : ℤ) :
      Step db (expireTransaction db transactionId now)

/-- Committed states reachable by any sequence of engine operations. -/
def Reachable : DB → DB → Prop := Relation.ReflTransGen Step

theorem LedgerInv_step (db db' : DB) (hstep : Step db db')
    (hI : LedgerInv db) : LedgerInv db' := by
  cases hstep with
  | create a b c d e h => exact LedgerInv_create _ _ _ _ _ _ h hI
  | upload a b c d h => exact LedgerInv_upload _ _ _ _ _ h hI
  | confirm a b c d e h => exact LedgerInv_confirm _ _ _ _ _ _ h hI
  | expire a b => exact LedgerInv_expire _ _ _ hI

theorem LedgerInv_reachable (db0 db : DB) (h : Reachable db0 db)
    (hI : LedgerInv db0) : LedgerInv db := by
  have h' : Relation.ReflTransGen Step db0 db := h
  clear h
  induction h' with
  | refl => exact hI
  | tail hsteps hstep ih => exact LedgerInv_step _ _ hstep ih

/-- C1: in every committed state reachable from an invariant-satisfying
initial state by any sequence of the engine's operations
(`createTransaction`, `uploadPaymentProof`, `confirmTransaction`, the
expiry sweep), every ticket type's sold counter stays within
`[0, quantity]`: committed reservations never exceed capacity and never go
negative. -/
theorem soldQuantity_bounds_reachable (db0 db : DB)
    (hreach : Reachable db0 db) (hinit : LedgerInv db0) :
    ∀ t ∈ db.ticketTypes, 0 ≤ t.soldQuantity ∧ t.soldQuantity ≤ t.quantity := by
  have hI := LedgerInv_reachable db0 db hreach hinit
  intro t ht
  exact ⟨(hI.1 t ht).1, (hI.1 t ht).2.1⟩

/-- Witness for `soldQuantity_bounds_reachable`: after the one-ticket
points booking on `Demo.dbPoints` (one real `createTransaction` step), the
sold counter sits at `1 ∈ [0, 5]`. -/
theorem soldQuantity_bounds_reachable_witness :
    0 ≤ ({ Demo.tt with soldQuantity := 1 } : TicketType).soldQuantity ∧
    ({ Demo.tt with soldQuantity := 1 } : TicketType).soldQuantity ≤
      ({ Demo.tt with soldQuantity := 1 } : TicketType).quantity := by
  have hrun : createTransaction Demo.dbPoints 2 Demo.reqRound 500 =
      .ok (Demo.dbRoundBooked, Demo.roundTx) := by
    norm_num [createTransaction, Demo.dbPoints, Demo.dbRoundBooked,
      Demo.roundTx, Demo.reqRound, Demo.ev, Demo.tt, Demo.lotA, Demo.lotB,
      validateTickets, buildItems, applyTicketUpdates, bumpSold, applyVoucher,
      applyCoupon, availablePoints, sumQuantities, deductPoints, eligibleLots,
      isEligibleLot, greedyPlan, planTotal, applyPlan, List.insertionSort,
      List.orderedInsert, addHours, bind, Except.bind, pure, Except.pure,
      List.find?, List.filter, List.any, List.map]
  have hinv : LedgerInv Demo.dbPoints := by
    refine ⟨?_, ?_, ?_, ?_, ?_⟩ <;>
      norm_num [Demo.dbPoints, Demo.tt, activeSold, List.filter]
  exact soldQuantity_bounds_reachable Demo.dbPoints Demo.dbRoundBooked
    (Relation.ReflTransGen.single
      (Step.create Demo.dbPoints 2 Demo.reqRound 500 Demo.dbRoundBooked
        Demo.roundTx hrun)) hinv ({ Demo.tt with soldQuantity := 1 })
    (by norm_num [Demo.dbRoundBooked])
